import Mathlib

/-!
# certwarden-backend: handlers, provider registry entry point and account operations

A shallow embedding of the request handlers of `pkg/challenges/providers` and
`pkg/domain/acme_accounts`.  A handler is a function from the collaborators it
consults (storage, CA client, output writer: each a record of the results the
handler can observe) and the request to the value it returns together with the
ordered list of the calls it made.

The functions of `pkg/storage/sqlite` are functions of the state of the
database: each SQL statement of the sources is given by what it selects from or
does to the rows of the tables that `createDBTablesV6` declares, and the engine
may make any call fail.
-/

namespace CertWarden

/-- Go `error` values.  Package level sentinels keep their identity; errors made
at a call site with `errors.New` or `fmt.Errorf` carry their text; errors that
come out of code that is not part of these sources are `foreign`. -/
inductive GoError where
  /-- acme_accounts/validation.go -/
  | ErrIdBad
  | ErrNameBad
  | ErrEmailBad
  /-- dns01acmesh/service.go -/
  | errServiceComponent
  | errBashMissing
  | errWindows
  /-- the storage package sentinel -/
  | ErrNoRecord
  | new (msg : String)
  | foreign (msg : String)
  /-- `fmt.Errorf` with the verb `%s` applied to an error: a new error that
  does not unwrap to its argument. -/
  | errorf (format : String) (arg : GoError)
  /-- An error that unwraps to `inner`. -/
  | wrap (msg : String) (inner : GoError)
  deriving DecidableEq, Repr

/-- Go `errors.Is`: `err` is `target`, or unwraps to an error that is. -/
def errorsIs (err target : GoError) : Bool :=
  if err = target then true
  else match err with
    | .wrap _ inner => errorsIs inner target
    | _ => false

namespace output

/-- The sentinel `*output.Error` values the handlers return. -/
inductive Error where
  | ErrValidationFailed
  | ErrStorageGeneric
  | ErrInternal
  | ErrWriteJsonError
  deriving DecidableEq, Repr

/-- The `*output.JsonError` values, each built from the error it wraps. -/
inductive JsonError where
  | JsonErrValidationFailed (err : GoError)
  | JsonErrNotFound (err : GoError)
  | JsonErrStorageGeneric (err : GoError)
  | JsonErrInternal (err : GoError)
  | JsonErrWriteJsonError (err : GoError)
  deriving DecidableEq, Repr

end output

/-! ## Provider backend configurations -/

namespace dns01acmesh

/-- Configuration options of the acme.sh backend. -/
structure Config where
  AcmeShPath : String
  Environment : List String
  DnsHook : String
  deriving DecidableEq, Repr

end dns01acmesh

namespace dns01manual

/-- Configuration options of the manual script backend. -/
structure Config where
  Environment : List String
  CreateScript : String
  DeleteScript : String
  deriving DecidableEq, Repr

end dns01manual

namespace http01internal

/-- Modelled from the spec: the Config type of this backend package is declared
outside the available sources; the spec only says that a backend receives its
own configuration, so its content is kept as one uninterpreted value. -/
structure Config where
  raw : String
  deriving DecidableEq, Repr

end http01internal

namespace dns01acmedns

/-- Modelled from the spec: the Config type of this backend package is declared
outside the available sources; its content is kept as one uninterpreted value. -/
structure Config where
  raw : String
  deriving DecidableEq, Repr

end dns01acmedns

namespace dns01cloudflare

/-- Modelled from the spec: the Config type of this backend package is declared
outside the available sources; its content is kept as one uninterpreted value. -/
structure Config where
  raw : String
  deriving DecidableEq, Repr

end dns01cloudflare

namespace dns01goacme

/-- Modelled from the spec: the Config type of this backend package is declared
outside the available sources; its content is kept as one uninterpreted value. -/
structure Config where
  raw : String
  deriving DecidableEq, Repr

end dns01goacme

/-! ## pkg/challenges/providers -/

namespace providers

/-- The Go interface `providerConfig` is empty; the values that reach it from
`CreateProvider` are pointers to one of the six backend configurations. -/
inductive providerConfig where
  | http01internal (cfg : http01internal.Config)
  | dns01manual (cfg : dns01manual.Config)
  | dns01acmedns (cfg : dns01acmedns.Config)
  | dns01acmesh (cfg : dns01acmesh.Config)
  | dns01cloudflare (cfg : dns01cloudflare.Config)
  | dns01goacme (cfg : dns01goacme.Config)
  deriving DecidableEq, Repr

/-- A provider that is being managed (provider.go); the Go field `Type` is
`Type_` here.  The embedded backend `Service` value is not serialised and is
not represented. -/
structure provider where
  ID : Int
  Tag : String
  Type_ : String
  Domains : List String
  Config : providerConfig
  deriving DecidableEq, Repr

/-- The payload used to add a provider (handlers_post.go). -/
structure newPayload where
  Domains : List String
  Http01InternalConfig : Option http01internal.Config
  Dns01ManualConfig : Option dns01manual.Config
  Dns01AcmeDnsConfig : Option dns01acmedns.Config
  Dns01AcmeShConfig : Option dns01acmesh.Config
  Dns01CloudflareConfig : Option dns01cloudflare.Config
  Dns01GoAcmeConfig : Option dns01goacme.Config
  deriving DecidableEq, Repr

/-- The JSON response of the provider handlers: status code, message and the
provider pointer (which may be nil). -/
structure providerResponse where
  StatusCode : Nat
  Message : String
  Provider : Option provider
  deriving DecidableEq, Repr

/-- The calls `CreateProvider` makes, in the order it makes them. -/
inductive Event where
  | muLock
  | muUnlock
  | decodeBody
  | loggerDebug
  | loggerError
  | unsafeAddProvider (domains : List String) (cfg : providerConfig)
  | unsafeWriteProvidersConfig
  | WriteJSON (response : providerResponse)
  deriving DecidableEq, Repr

/-- The parts of `Manager` that `CreateProvider` calls.  Their bodies are not
in the available sources, so each is given by what it returns to the handler:
`unsafeAddProvider` returns a provider pointer and an error, the other two an
error (`none` is nil). -/
structure Manager where
  unsafeAddProvider : List String → providerConfig → Option provider × Option GoError
  unsafeWriteProvidersConfig : Option GoError
  WriteJSON : providerResponse → Option GoError

/-- The request as the handler sees it: the outcome of decoding its body. -/
structure Request where
  body : Except GoError newPayload

/-- Lines 43 to 61 of handlers_post.go: the running count of non-nil configs. -/
def configCount (payload : newPayload) : Nat :=
  let configCount := 0
  let configCount := if payload.Http01InternalConfig ≠ none then configCount + 1 else configCount
  let configCount := if payload.Dns01ManualConfig ≠ none then configCount + 1 else configCount
  let configCount := if payload.Dns01AcmeDnsConfig ≠ none then configCount + 1 else configCount
  let configCount := if payload.Dns01AcmeShConfig ≠ none then configCount + 1 else configCount
  let configCount := if payload.Dns01CloudflareConfig ≠ none then configCount + 1 else configCount
  let configCount := if payload.Dns01GoAcmeConfig ≠ none then configCount + 1 else configCount
  configCount

/-- Lines 68 to 89 of handlers_post.go: the first non-nil config, in the order
of the if-else chain, is handed to `unsafeAddProvider`; the final else branch
only logs and leaves both `p` and `err` nil. -/
def addSpecified (mgr : Manager) (payload : newPayload) :
    (Option provider × Option GoError) × List Event :=
  match payload.Http01InternalConfig with
  | some c => (mgr.unsafeAddProvider payload.Domains (.http01internal c),
      [.unsafeAddProvider payload.Domains (.http01internal c)])
  | none =>
  match payload.Dns01ManualConfig with
  | some c => (mgr.unsafeAddProvider payload.Domains (.dns01manual c),
      [.unsafeAddProvider payload.Domains (.dns01manual c)])
  | none =>
  match payload.Dns01AcmeDnsConfig with
  | some c => (mgr.unsafeAddProvider payload.Domains (.dns01acmedns c),
      [.unsafeAddProvider payload.Domains (.dns01acmedns c)])
  | none =>
  match payload.Dns01AcmeShConfig with
  | some c => (mgr.unsafeAddProvider payload.Domains (.dns01acmesh c),
      [.unsafeAddProvider payload.Domains (.dns01acmesh c)])
  | none =>
  match payload.Dns01CloudflareConfig with
  | some c => (mgr.unsafeAddProvider payload.Domains (.dns01cloudflare c),
      [.unsafeAddProvider payload.Domains (.dns01cloudflare c)])
  | none =>
  match payload.Dns01GoAcmeConfig with
  | some c => (mgr.unsafeAddProvider payload.Domains (.dns01goacme c),
      [.unsafeAddProvider payload.Domains (.dns01goacme c)])
  | none => ((none, none), [.loggerError])

/-- The body of `CreateProvider` between taking the lock and the deferred
unlock: the returned `*output.Error` (`none` is nil) and the calls made. -/
def CreateProviderBody (mgr : Manager) (r : Request) : Option output.Error × List Event :=
  -- decode body into payload
  match r.body with
  | .error _ => (some .ErrValidationFailed, [.decodeBody, .loggerDebug])
  | .ok payload =>
    -- verify correct number of configs received
    if configCount payload ≠ 1 then
      (some .ErrValidationFailed, [.decodeBody, .loggerDebug])
    else
      -- try to add the specified provider (actual action)
      match addSpecified mgr payload with
      | ((_, some _), evAdd) =>
        -- common err check
        (some .ErrValidationFailed, [.decodeBody] ++ evAdd ++ [.loggerDebug])
      | ((p, none), evAdd) =>
        -- update config file
        match mgr.unsafeWriteProvidersConfig with
        | some _ =>
          (some .ErrInternal,
            [.decodeBody] ++ evAdd ++ [.unsafeWriteProvidersConfig, .loggerError])
        | none =>
          -- write response
          let response : providerResponse :=
            { StatusCode := 201, Message := "created provider", Provider := p }
          match mgr.WriteJSON response with
          | some _ =>
            (some .ErrWriteJsonError,
              [.decodeBody] ++ evAdd ++
                [.unsafeWriteProvidersConfig, .WriteJSON response, .loggerError])
          | none =>
            (none,
              [.decodeBody] ++ evAdd ++ [.unsafeWriteProvidersConfig, .WriteJSON response])

/-- The handler `Manager.CreateProvider`: `mgr.mu.Lock()`, the deferred
`mgr.mu.Unlock()` that runs when the body returns, and the body. -/
def CreateProvider (mgr : Manager) (r : Request) : Option output.Error × List Event :=
  let out := CreateProviderBody mgr r
  (out.1, [Event.muLock] ++ out.2 ++ [Event.muUnlock])

/-- An event that is a call of `unsafeAddProvider`. -/
def Event.isAdd : Event → Bool
  | .unsafeAddProvider _ _ => true
  | _ => false

/-- An event that is a call of `unsafeWriteProvidersConfig`. -/
def Event.isWriteConfig : Event → Bool
  | .unsafeWriteProvidersConfig => true
  | _ => false

/-- An event that writes a JSON response. -/
def Event.isWriteJSON : Event → Bool
  | .WriteJSON _ => true
  | _ => false

/-- The number of backend configs of a payload that are not nil, counted over
the six fields at once. -/
def nonNilConfigs (payload : newPayload) : Nat :=
  ([payload.Http01InternalConfig.isSome, payload.Dns01ManualConfig.isSome,
    payload.Dns01AcmeDnsConfig.isSome, payload.Dns01AcmeShConfig.isSome,
    payload.Dns01CloudflareConfig.isSome, payload.Dns01GoAcmeConfig.isSome].filter id).length

end providers

/-! ## pkg/challenges/providers/dns01acmesh -/

namespace dns01acmesh

/-- The byte string `main "$@"` that ends the part of acme.sh that is kept. -/
def mainCall : List Nat := [109, 97, 105, 110, 32, 34, 36, 64, 34]

def acmeShFileName : String := "acme.sh"
def dnsApiPath : String := "/dnsapi"
def tempScriptPath : String := "/temp"

/-- Whether `sep` occurs at the start of `s`. -/
def startsWith : List Nat → List Nat → Bool
  | _, [] => true
  | [], _ :: _ => false
  | b :: s, c :: sep => b == c && startsWith s sep

/-- The first result of Go `bytes.Cut s sep`: the bytes before the first
occurrence of `sep`, or all of `s` when `sep` does not occur. -/
def cutBefore (s sep : List Nat) : List Nat :=
  if startsWith s sep then []
  else match s with
    | [] => []
    | b :: rest => b :: cutBefore rest sep

/-- A logger handle (`*zap.SugaredLogger`). -/
structure Logger where
  name : String
  deriving DecidableEq, Repr

/-- The `App` interface: `GetLogger` may return nil. -/
structure App where
  GetLogger : Option Logger

/-- Modelled from the spec: package `environment` is outside the available
sources; its `Params` value is kept as the list of accepted entries. -/
structure Params where
  entries : List String
  deriving DecidableEq, Repr

/-- The host the service is constructed on: what the operating system and the
packages outside these sources answer to each call `NewService` makes. -/
structure Host where
  GOOS : String
  LookPath : String → Except GoError String
  ReadFile : String → Except GoError (List Nat)
  /-- `errors.Is(err, os.ErrNotExist)` for the error of `os.Stat path` -/
  StatNotExist : String → Bool
  Mkdir : String → Option GoError
  Create : String → Option GoError
  Write : String → List Nat → Option GoError
  /-- `environment.NewParams`: the params and the invalid entries -/
  NewParams : List String → Params × List String

/-- The provider service struct. -/
structure Service where
  logger : Logger
  shellPath : String
  shellScriptPath : String
  dnsHook : String
  environmentParams : Params
  deriving DecidableEq, Repr

/-- The file system calls of `NewService` that change the host, and its log. -/
inductive FsEvent where
  | Mkdir (path : String)
  | Create (path : String)
  | Write (path : String) (data : List Nat)
  | Close (path : String)
  | loggerError
  deriving DecidableEq, Repr

/-- The function `NewService` of service.go: the service or the error, and
the changes made to the host on the way. -/
def NewService (host : Host) (app : App) (cfg : Option Config) :
    Except GoError Service × List FsEvent :=
  -- error and fail if trying to run on windows
  if host.GOOS = "windows" then (.error .errWindows, [])
  else
  -- if no config, error
  match cfg with
  | none => (.error .errServiceComponent, [])
  | some cfg =>
  -- logger
  match app.GetLogger with
  | none => (.error .errServiceComponent, [])
  | some logger =>
  -- bash is required
  match host.LookPath "bash" with
  | .error _ => (.error .errBashMissing, [])
  | .ok shellPath =>
  -- read in base script
  match host.ReadFile (cfg.AcmeShPath ++ "/" ++ acmeShFileName) with
  | .error err => (.error err, [])
  | .ok acmeSh =>
  -- remove execution of main func
  let acmeSh := cutBefore acmeSh mainCall
  -- read in dns_hook script
  match host.ReadFile (cfg.AcmeShPath ++ dnsApiPath ++ "/" ++ cfg.DnsHook ++ ".sh") with
  | .error err => (.error err, [])
  | .ok acmeShDnsHook =>
  -- combine scripts
  let shellScript := acmeSh ++ acmeShDnsHook
  -- store in file to use as source
  let path := cfg.AcmeShPath ++ tempScriptPath
  let mk : Option GoError × List FsEvent :=
    if host.StatNotExist path then (host.Mkdir path, [.Mkdir path]) else (none, [])
  match mk with
  | (some err, ev) => (.error err, ev)
  | (none, ev) =>
  let shellScriptPath := path ++ "/" ++ acmeShFileName ++ "_" ++ cfg.DnsHook ++ ".sh"
  match host.Create shellScriptPath with
  | some err => (.error err, ev ++ [.Create shellScriptPath])
  | none =>
  match host.Write shellScriptPath shellScript with
  | some err =>
    (.error err, ev ++ [.Create shellScriptPath, .Write shellScriptPath shellScript,
      .Close shellScriptPath])
  | none =>
  -- environment vars
  let np := host.NewParams cfg.Environment
  let service : Service :=
    { logger := logger, shellPath := shellPath, shellScriptPath := shellScriptPath,
      dnsHook := cfg.DnsHook, environmentParams := np.1 }
  (.ok service,
    ev ++ [.Create shellScriptPath, .Write shellScriptPath shellScript] ++
      (if np.2.length > 0 then [.loggerError] else []) ++ [.Close shellScriptPath])

end dns01acmesh

/-! ## pkg/domain/acme_accounts -/

namespace crypto

/-- Modelled from the spec: a private key is an opaque cryptographic key
handle; the Go value comes from packages outside the available sources. -/
structure PrivateKey where
  handle : String
  deriving DecidableEq, Repr

end crypto

namespace acme

/-- Modelled from the spec: the account representation returned by the CA.
Package `acme` is outside the available sources, so the representation is kept
as one uninterpreted value. -/
structure Account where
  raw : String
  deriving DecidableEq, Repr

/-- The ACME account key: the signing key and the key id (`acme.AccountKey`). -/
structure AccountKey where
  Key : crypto.PrivateKey
  Kid : String
  deriving DecidableEq, Repr

/-- The payload of the new-account call, as account.go fills it. -/
structure NewAccountPayload where
  TosAgreed : Bool
  Contact : List String
  ExternalAccountBindingKid : String
  ExternalAccountBindingHmacKey : String
  deriving DecidableEq, Repr

/-- The payload of the account update call, as handlers_put_acme.go fills it. -/
structure UpdateAccountPayload where
  Contact : List String
  deriving DecidableEq, Repr

/-- The CA client of one ACME server (`*acme.Service`), given by what each call
returns: the four signed account calls, and the two directory values read by
the detailed response. -/
structure Service where
  NewAccount : NewAccountPayload → crypto.PrivateKey → Except GoError Account
  UpdateAccount : UpdateAccountPayload → AccountKey → Except GoError Account
  DeactivateAccount : AccountKey → Except GoError Account
  RolloverAccountKey : crypto.PrivateKey → AccountKey → Option GoError
  RequiresEAB : Bool
  TosUrl : String

end acme

namespace acme_servers

/-- The fields of `acme_servers.Server` that account.go reads. -/
structure Server where
  ID : Int
  Name : String
  DirectoryURL : String
  IsStaging : Bool
  deriving DecidableEq, Repr

end acme_servers

namespace private_keys

/-- A private key record (`private_keys.Key`): the columns of the table
`private_keys` that the storage layer scans. -/
structure Key where
  ID : Int
  Name : String
  Description : String
  Algorithm : String
  Pem : String
  ApiKey : String
  ApiKeyNew : String
  ApiKeyDisabled : Bool
  ApiKeyViaUrl : Bool
  CreatedAt : Int
  UpdatedAt : Int
  deriving DecidableEq, Repr

end private_keys

namespace acme_accounts

/-- Account is a single ACME account (account.go). -/
structure Account where
  ID : Int
  Name : String
  Description : String
  AcmeServer : acme_servers.Server
  AccountKey : private_keys.Key
  Status : String
  Email : String
  AcceptedTos : Bool
  CreatedAt : Int
  UpdatedAt : Int
  Kid : String
  deriving DecidableEq, Repr

/-- The value `PutAcmeAccountResponse` receives: the embedded `acme.Account`
of the CA and the two local fields the handlers set. -/
structure AcmeAccount where
  Account : acme.Account
  ID : Int
  UpdatedAt : Int
  deriving DecidableEq, Repr

/-- The register payload: External Account Binding information. -/
structure registerPayload where
  EabKid : String
  EabHmacKey : String
  deriving DecidableEq, Repr

/-- The payload of an email change; the pointer is nil when the field is
missing from the body. -/
structure changeEmailPayload where
  Email : Option String
  deriving DecidableEq, Repr

/-- RolloverKeyPayload is used to change the private key of an account. -/
structure RolloverKeyPayload where
  ID : Int
  PrivateKeyID : Option Int
  UpdatedAt : Int
  deriving DecidableEq, Repr

structure accountServerSummaryResponse where
  ID : Int
  Name : String
  DirectoryURL : String
  IsStaging : Bool
  deriving DecidableEq, Repr

structure accountKeySummaryResponse where
  ID : Int
  Name : String
  deriving DecidableEq, Repr

/-- The summary response; `IsStaging` is never set and keeps its zero value. -/
structure AccountSummaryResponse where
  ID : Int
  Name : String
  Description : String
  AcmeServer : accountServerSummaryResponse
  AccountKey : accountKeySummaryResponse
  Status : String
  Email : String
  AcceptedTos : Bool
  IsStaging : Bool
  deriving DecidableEq, Repr

structure accountServerDetailedResponse where
  accountServerSummaryResponse : accountServerSummaryResponse
  ExternalAccountRequired : Bool
  TermsOfService : String
  deriving DecidableEq, Repr

structure accountKeyDetailedResponse where
  accountKeySummaryResponse : accountKeySummaryResponse
  Algorithm : String
  deriving DecidableEq, Repr

structure accountDetailedResponse where
  AccountSummaryResponse : AccountSummaryResponse
  AcmeServer : accountServerDetailedResponse
  AccountKey : accountKeyDetailedResponse
  CreatedAt : Int
  UpdatedAt : Int
  Kid : String
  deriving DecidableEq, Repr

/-- The JSON response of the account handlers. -/
structure accountResponse where
  StatusCode : Nat
  Message : String
  Account : accountDetailedResponse
  deriving DecidableEq, Repr

/-- The storage calls of the account handlers, each given by what it returns. -/
structure Storage where
  GetOneAccountById : Int → Except GoError Account
  GetOneKeyById : Int → Except GoError private_keys.Key
  PutAcmeAccountResponse : AcmeAccount → Except GoError Account
  PutNewAccountKey : RolloverKeyPayload → Except GoError Account
  /-- `GetAllAccounts` for the zero `pagination_sort.Query`: the accounts and
  the total row count, or the error -/
  GetAllAccounts : Except GoError (List Account × Int)
  GetOneAccountByName : String → Except GoError Account

/-- The private keys service, of which the handlers call `KeyAvailable`. -/
structure KeysService where
  KeyAvailable : Int → Bool

/-- The ACME servers service, of which the handlers call `AcmeService`.  A
handler looks a service up twice, once for its CA call and once more for the
detailed response; the first argument is the number of lookups made before
this one in the run of the handler, so that the two may be answered
differently. -/
structure AcmeServerService where
  AcmeService : Nat → Int → Except GoError acme.Service

/-- The output service, of which the handlers call `WriteJSON`. -/
structure OutputService where
  WriteJSON : accountResponse → Option GoError

/-- Functions of packages that are outside the available sources, and the
clock: `strconv.Atoi`, `key_crypto.PemStringToKey`, `Key.CryptoPrivateKey`,
the three `validation` predicates, `emailToContact` and `time.Now().Unix()`. -/
structure Lib where
  Atoi : String → Except GoError Int
  PemStringToKey : String → String → Except GoError crypto.PrivateKey
  CryptoPrivateKey : private_keys.Key → Except GoError crypto.PrivateKey
  EmailValid : String → Bool
  NameValid : String → Bool
  IsIdExistingValidRange : Int → Bool
  emailToContact : String → List String
  now : Int

/-- The account service with the collaborators its handlers use. -/
structure Service where
  storage : Storage
  keys : KeysService
  acmeServerService : AcmeServerService
  output : OutputService
  lib : Lib

/-- The request as a handler sees it: the route parameter `id` and the outcome
of decoding the body into the payload type of the handler. -/
structure Request (β : Type) where
  idParam : String
  body : Except GoError β

/-- The calls the account handlers make, in the order they make them. -/
inductive Event where
  | decodeBody
  | loggerDebug
  | loggerError
  | GetOneAccountById (id : Int)
  | GetOneKeyById (id : Int)
  | KeyAvailable (id : Int)
  | AcmeService (serverId : Int)
  | NewAccount (payload : acme.NewAccountPayload) (key : crypto.PrivateKey)
  | UpdateAccount (payload : acme.UpdateAccountPayload) (key : acme.AccountKey)
  | DeactivateAccount (key : acme.AccountKey)
  | RolloverAccountKey (newKey : crypto.PrivateKey) (oldKey : acme.AccountKey)
  | PutAcmeAccountResponse (acmeAccount : AcmeAccount)
  | PutNewAccountKey (payload : RolloverKeyPayload)
  | WriteJSON (response : accountResponse)
  deriving DecidableEq, Repr

/-- A signed call to the CA. -/
def Event.isCaCall : Event → Bool
  | .NewAccount _ _ => true
  | .UpdateAccount _ _ => true
  | .DeactivateAccount _ => true
  | .RolloverAccountKey _ _ => true
  | _ => false

/-- A call that writes account state to storage. -/
def Event.isStorageWrite : Event → Bool
  | .PutAcmeAccountResponse _ => true
  | .PutNewAccountKey _ => true
  | _ => false

/-- The number of signed CA calls in a list of calls. -/
def caCalls (t : List Event) : Nat := (t.filter Event.isCaCall).length

/-- The number of storage writes in a list of calls. -/
def storageWrites (t : List Event) : Nat := (t.filter Event.isStorageWrite).length

def Account.SummaryResponse (acct : Account) : AccountSummaryResponse :=
  { ID := acct.ID
    Name := acct.Name
    Description := acct.Description
    AcmeServer :=
      { ID := acct.AcmeServer.ID
        Name := acct.AcmeServer.Name
        DirectoryURL := acct.AcmeServer.DirectoryURL
        IsStaging := acct.AcmeServer.IsStaging }
    AccountKey := { ID := acct.AccountKey.ID, Name := acct.AccountKey.Name }
    Status := acct.Status
    Email := acct.Email
    AcceptedTos := acct.AcceptedTos
    IsStaging := false }

/-- The method `detailedResponse` of account.go, called by every handler after
its own lookup of the ACME service. -/
def Account.detailedResponse (acct : Account) (service : Service) :
    Except GoError accountDetailedResponse × List Event :=
  match service.acmeServerService.AcmeService 1 acct.AcmeServer.ID with
  | .error err => (.error err, [.AcmeService acct.AcmeServer.ID])
  | .ok as =>
    (.ok
      { AccountSummaryResponse := acct.SummaryResponse
        AcmeServer :=
          { accountServerSummaryResponse :=
              { ID := acct.AcmeServer.ID
                Name := acct.AcmeServer.Name
                DirectoryURL := acct.AcmeServer.DirectoryURL
                IsStaging := acct.AcmeServer.IsStaging }
            ExternalAccountRequired := as.RequiresEAB
            TermsOfService := as.TosUrl }
        AccountKey :=
          { accountKeySummaryResponse :=
              { ID := acct.AccountKey.ID, Name := acct.AccountKey.Name }
            Algorithm := acct.AccountKey.Algorithm }
        CreatedAt := acct.CreatedAt
        UpdatedAt := acct.UpdatedAt
        Kid := acct.Kid },
      [.AcmeService acct.AcmeServer.ID])

/-- The method `AcmeAccountKey` of account.go: the crypto key of the account
key with the kid of the account. -/
def Account.AcmeAccountKey (account : Account) (service : Service) :
    Except GoError acme.AccountKey :=
  match service.lib.CryptoPrivateKey account.AccountKey with
  | .error err => .error err
  | .ok key => .ok { Key := key, Kid := account.Kid }

def Account.newAccountPayload (account : Account) (service : Service)
    (eabKid eabHmacKey : String) : acme.NewAccountPayload :=
  { TosAgreed := account.AcceptedTos
    Contact := service.lib.emailToContact account.Email
    ExternalAccountBindingKid := eabKid
    ExternalAccountBindingHmacKey := eabHmacKey }

/-- The function `getAccount` of validation.go. -/
def getAccount (service : Service) (id : Int) :
    Except output.JsonError Account × List Event :=
  -- if id is not in valid range, it is definitely not valid
  if !service.lib.IsIdExistingValidRange id then
    (.error (.JsonErrValidationFailed .ErrIdBad), [.loggerDebug])
  else
    -- get from storage
    match service.storage.GetOneAccountById id with
    | .error err =>
      -- special error case for no record found
      if errorsIs err .ErrNoRecord then
        (.error (.JsonErrNotFound (.new ("account id " ++ toString id ++ " not found"))),
          [.GetOneAccountById id, .loggerDebug])
      else
        (.error (.JsonErrStorageGeneric err), [.GetOneAccountById id, .loggerError])
    | .ok account => (.ok account, [.GetOneAccountById id])

/-- The handler `NewAcmeAccount` of handlers_post_acme.go: the returned
`*output.Error` (`none` is nil) and the calls made. -/
def NewAcmeAccount (service : Service) (r : Request registerPayload) :
    Option output.Error × List Event :=
  -- decode body into payload
  match r.body with
  | .error _ => (some .ErrValidationFailed, [.decodeBody, .loggerDebug])
  | .ok payload =>
  -- convert id param to an integer
  match service.lib.Atoi r.idParam with
  | .error _ => (some .ErrValidationFailed, [.decodeBody, .loggerDebug])
  | .ok idParam =>
  -- fetch the relevant account
  let t1 : List Event := [.decodeBody, .GetOneAccountById idParam]
  match service.storage.GetOneAccountById idParam with
  | .error _ => (some .ErrStorageGeneric, t1 ++ [.loggerError])
  | .ok account =>
  -- get crypto key
  match service.lib.PemStringToKey account.AccountKey.Pem account.AccountKey.Algorithm with
  | .error _ => (some .ErrInternal, t1 ++ [.loggerError])
  | .ok key =>
  -- send the new-account to ACME
  let t2 := t1 ++ [.AcmeService account.AcmeServer.ID]
  match service.acmeServerService.AcmeService 0 account.AcmeServer.ID with
  | .error _ => (some .ErrInternal, t2 ++ [.loggerError])
  | .ok acmeService =>
  let acmePayload := account.newAccountPayload service payload.EabKid payload.EabHmacKey
  let t3 := t2 ++ [.NewAccount acmePayload key]
  match acmeService.NewAccount acmePayload key with
  | .error _ => (some .ErrInternal, t3 ++ [.loggerError])
  | .ok resp =>
  -- add additional details to the acmeAccount before saving
  let acmeAccount : AcmeAccount :=
    { Account := resp, ID := idParam, UpdatedAt := service.lib.now }
  -- save ACME response to account
  let t4 := t3 ++ [.PutAcmeAccountResponse acmeAccount]
  match service.storage.PutAcmeAccountResponse acmeAccount with
  | .error _ => (some .ErrStorageGeneric, t4 ++ [.loggerError])
  | .ok updatedAcct =>
  let dr := updatedAcct.detailedResponse service
  match dr.1 with
  | .error _ => (some .ErrInternal, t4 ++ dr.2 ++ [.loggerError])
  | .ok updatedAcctDetailedResp =>
  -- write response
  let response : accountResponse :=
    { StatusCode := 200, Message := "registered account", Account := updatedAcctDetailedResp }
  let t5 := t4 ++ dr.2 ++ [.WriteJSON response]
  match service.output.WriteJSON response with
  | some _ => (some .ErrWriteJsonError, t5 ++ [.loggerError])
  | none => (none, t5)

/-- The handler `Deactivate` of handlers_post_acme.go. -/
def Deactivate (service : Service) (r : Request Unit) :
    Option output.Error × List Event :=
  -- convert id param to an integer
  match service.lib.Atoi r.idParam with
  | .error _ => (some .ErrValidationFailed, [.loggerDebug])
  | .ok idParam =>
  -- fetch the relevant account
  let t1 : List Event := [.GetOneAccountById idParam]
  match service.storage.GetOneAccountById idParam with
  | .error _ => (some .ErrStorageGeneric, t1 ++ [.loggerError])
  | .ok account =>
  -- get acme AccountKey
  match account.AcmeAccountKey service with
  | .error _ => (some .ErrInternal, t1 ++ [.loggerError])
  | .ok acmeAccountKey =>
  -- if kid is blank, can't deactivate
  if acmeAccountKey.Kid = "" then (some .ErrValidationFailed, t1 ++ [.loggerDebug])
  -- status must be 'valid' to deactivate
  else if account.Status ≠ "valid" then (some .ErrValidationFailed, t1 ++ [.loggerDebug])
  else
  -- send the new-account to ACME
  let t2 := t1 ++ [.AcmeService account.AcmeServer.ID]
  match service.acmeServerService.AcmeService 0 account.AcmeServer.ID with
  | .error _ => (some .ErrInternal, t2 ++ [.loggerError])
  | .ok acmeService =>
  let t3 := t2 ++ [.DeactivateAccount acmeAccountKey]
  match acmeService.DeactivateAccount acmeAccountKey with
  | .error _ => (some .ErrInternal, t3 ++ [.loggerError])
  | .ok resp =>
  -- add additional details to the acmeAccount before saving
  let acmeAccount : AcmeAccount :=
    { Account := resp, ID := idParam, UpdatedAt := service.lib.now }
  -- save ACME response to account
  let t4 := t3 ++ [.PutAcmeAccountResponse acmeAccount]
  match service.storage.PutAcmeAccountResponse acmeAccount with
  | .error _ => (some .ErrStorageGeneric, t4 ++ [.loggerError])
  | .ok updatedAcct =>
  let dr := updatedAcct.detailedResponse service
  match dr.1 with
  | .error _ => (some .ErrInternal, t4 ++ dr.2 ++ [.loggerError])
  | .ok updatedAcctDetailedResp =>
  -- write response
  let response : accountResponse :=
    { StatusCode := 200, Message := "deactivated account", Account := updatedAcctDetailedResp }
  let t5 := t4 ++ dr.2 ++ [.WriteJSON response]
  match service.output.WriteJSON response with
  | some _ => (some .ErrWriteJsonError, t5 ++ [.loggerError])
  | none => (none, t5)

/-- The handler `ChangeEmail` of handlers_put_acme.go: the returned
`*output.JsonError` (`none` is nil) and the calls made. -/
def ChangeEmail (service : Service) (r : Request changeEmailPayload) :
    Option output.JsonError × List Event :=
  -- get id from param
  match service.lib.Atoi r.idParam with
  | .error err => (some (.JsonErrValidationFailed err), [.loggerDebug])
  | .ok id =>
  -- decode payload
  match r.body with
  | .error err => (some (.JsonErrValidationFailed err), [.decodeBody, .loggerDebug])
  | .ok payload =>
  -- validation: id
  let ga := getAccount service id
  match ga.1 with
  | .error outErr => (some outErr, [.decodeBody] ++ ga.2)
  | .ok account =>
  let t1 : List Event := [.decodeBody] ++ ga.2
  -- email (allow user to try blank -- ACME Server may reject though)
  -- but do reject field was missing
  match payload.Email with
  | none => (some (.JsonErrValidationFailed .ErrEmailBad), t1 ++ [.loggerDebug])
  | some email =>
  if email ≠ "" ∧ !service.lib.EmailValid email then
    (some (.JsonErrValidationFailed .ErrEmailBad), t1 ++ [.loggerDebug])
  else
  -- get AccountKey
  match account.AcmeAccountKey service with
  | .error err => (some (.JsonErrInternal err), t1 ++ [.loggerError])
  | .ok acmeAccountKey =>
  -- make ACME update email payload
  let acmePayload : acme.UpdateAccountPayload :=
    { Contact := service.lib.emailToContact email }
  -- send the email update to ACME
  let t2 := t1 ++ [.AcmeService account.AcmeServer.ID]
  match service.acmeServerService.AcmeService 0 account.AcmeServer.ID with
  | .error err => (some (.JsonErrInternal err), t2 ++ [.loggerError])
  | .ok acmeService =>
  let t3 := t2 ++ [.UpdateAccount acmePayload acmeAccountKey]
  match acmeService.UpdateAccount acmePayload acmeAccountKey with
  | .error err => (some (.JsonErrInternal err), t3 ++ [.loggerError])
  | .ok resp =>
  -- add additional details to the payload before saving
  let acmeAccount : AcmeAccount :=
    { Account := resp, ID := id, UpdatedAt := service.lib.now }
  -- save ACME response to account
  let t4 := t3 ++ [.PutAcmeAccountResponse acmeAccount]
  match service.storage.PutAcmeAccountResponse acmeAccount with
  | .error err => (some (.JsonErrStorageGeneric err), t4 ++ [.loggerError])
  | .ok updatedAcct =>
  let dr := updatedAcct.detailedResponse service
  match dr.1 with
  | .error err =>
    (some (.JsonErrInternal
        (.errorf "failed to generate account summary response (%s)" err)),
      t4 ++ dr.2 ++ [.loggerError])
  | .ok detailedResp =>
  -- write response
  let response : accountResponse :=
    { StatusCode := 200, Message := "updated account", Account := detailedResp }
  let t5 := t4 ++ dr.2 ++ [.WriteJSON response]
  match service.output.WriteJSON response with
  | some err => (some (.JsonErrWriteJsonError err), t5 ++ [.loggerError])
  | none => (none, t5)

/-- The handler `RolloverKey` of handlers_put_acme.go. -/
def RolloverKey (service : Service) (r : Request RolloverKeyPayload) :
    Option output.JsonError × List Event :=
  -- decode payload
  match r.body with
  | .error err => (some (.JsonErrValidationFailed err), [.decodeBody, .loggerDebug])
  | .ok payload =>
  -- get id from param
  match service.lib.Atoi r.idParam with
  | .error err => (some (.JsonErrValidationFailed err), [.decodeBody, .loggerDebug])
  | .ok id =>
  let payload : RolloverKeyPayload := { payload with ID := id }
  -- validation: id
  let ga := getAccount service payload.ID
  match ga.1 with
  | .error outErr => (some outErr, [.decodeBody] ++ ga.2)
  | .ok account =>
  let t1 : List Event := [.decodeBody] ++ ga.2
  -- new private key
  match payload.PrivateKeyID with
  | none =>
    (some (.JsonErrValidationFailed
        (.new "invalid private key specified for account key rollover")),
      t1 ++ [.loggerDebug])
  | some privateKeyID =>
  if !service.keys.KeyAvailable privateKeyID then
    (some (.JsonErrValidationFailed
        (.new "invalid private key specified for account key rollover")),
      t1 ++ [.KeyAvailable privateKeyID, .loggerDebug])
  else
  let t2 := t1 ++ [.KeyAvailable privateKeyID]
  -- get AccountKey
  match account.AcmeAccountKey service with
  | .error err => (some (.JsonErrInternal err), t2 ++ [.loggerError])
  | .ok oldAcmeAccountKey =>
  -- fetch new private key
  let t3 := t2 ++ [.GetOneKeyById privateKeyID]
  match service.storage.GetOneKeyById privateKeyID with
  | .error err => (some (.JsonErrStorageGeneric err), t3 ++ [.loggerError])
  | .ok newKey =>
  -- get crypto key from the new key
  match service.lib.CryptoPrivateKey newKey with
  | .error err => (some (.JsonErrInternal err), t3 ++ [.loggerError])
  | .ok newCryptoKey =>
  -- send the rollover to ACME
  let t4 := t3 ++ [.AcmeService account.AcmeServer.ID]
  match service.acmeServerService.AcmeService 0 account.AcmeServer.ID with
  | .error err => (some (.JsonErrInternal err), t4 ++ [.loggerError])
  | .ok acmeService =>
  let t5 := t4 ++ [.RolloverAccountKey newCryptoKey oldAcmeAccountKey]
  match acmeService.RolloverAccountKey newCryptoKey oldAcmeAccountKey with
  | some err => (some (.JsonErrInternal err), t5 ++ [.loggerError])
  | none =>
  -- add additional details to the payload before saving
  let payload : RolloverKeyPayload := { payload with UpdatedAt := service.lib.now }
  -- update private key id in db
  let t6 := t5 ++ [.PutNewAccountKey payload]
  match service.storage.PutNewAccountKey payload with
  | .error err => (some (.JsonErrStorageGeneric err), t6 ++ [.loggerError])
  | .ok updatedAcct =>
  let dr := updatedAcct.detailedResponse service
  match dr.1 with
  | .error err =>
    (some (.JsonErrInternal
        (.errorf "failed to generate account summary response (%s)" err)),
      t6 ++ dr.2 ++ [.loggerError])
  | .ok detailedResp =>
  -- write response
  let response : accountResponse :=
    { StatusCode := 200, Message := "updated account", Account := detailedResp }
  let t7 := t6 ++ dr.2 ++ [.WriteJSON response]
  match service.output.WriteJSON response with
  | some err => (some (.JsonErrWriteJsonError err), t7 ++ [.loggerError])
  | none => (none, t7)

/-- Every check and lookup that `NewAcmeAccount` makes before its CA call
succeeds: the body decodes, the id converts, the account loads, its key parses
and the ACME service of its server is found. -/
def NewAcmeAccount.checksPass (service : Service) (r : Request registerPayload) : Prop :=
  ∃ payload id account key acmeService,
    r.body = Except.ok payload ∧
    service.lib.Atoi r.idParam = .ok id ∧
    service.storage.GetOneAccountById id = .ok account ∧
    service.lib.PemStringToKey account.AccountKey.Pem account.AccountKey.Algorithm
      = .ok key ∧
    service.acmeServerService.AcmeService 0 account.AcmeServer.ID = .ok acmeService

/-- Every check and lookup that `Deactivate` makes before its CA call succeeds:
the id converts, the account loads, its key parses, the kid is not blank, the
status is `valid` and the ACME service of its server is found. -/
def Deactivate.checksPass (service : Service) (r : Request Unit) : Prop :=
  ∃ id account key acmeService,
    service.lib.Atoi r.idParam = .ok id ∧
    service.storage.GetOneAccountById id = .ok account ∧
    account.AcmeAccountKey service = .ok key ∧
    key.Kid ≠ "" ∧ account.Status = "valid" ∧
    service.acmeServerService.AcmeService 0 account.AcmeServer.ID = .ok acmeService

/-- Every check and lookup that `ChangeEmail` makes before its CA call
succeeds: the id converts, the body decodes, the id is in range and the
account loads, the email is present and is blank or valid, the key parses and
the ACME service of the server is found. -/
def ChangeEmail.checksPass (service : Service) (r : Request changeEmailPayload) : Prop :=
  ∃ id payload account email key acmeService,
    service.lib.Atoi r.idParam = .ok id ∧
    r.body = Except.ok payload ∧
    service.lib.IsIdExistingValidRange id = true ∧
    service.storage.GetOneAccountById id = .ok account ∧
    payload.Email = some email ∧
    (email ≠ "" → service.lib.EmailValid email = true) ∧
    account.AcmeAccountKey service = .ok key ∧
    service.acmeServerService.AcmeService 0 account.AcmeServer.ID = .ok acmeService

/-- Every check and lookup that `RolloverKey` makes before its CA call
succeeds: the body decodes, the id converts, the id is in range and the
account loads, the new key id is present and available, the old key parses,
the new key loads and parses and the ACME service of the server is found. -/
def RolloverKey.checksPass (service : Service) (r : Request RolloverKeyPayload) : Prop :=
  ∃ payload id account privateKeyID oldKey newKey newCryptoKey acmeService,
    r.body = Except.ok payload ∧
    service.lib.Atoi r.idParam = .ok id ∧
    service.lib.IsIdExistingValidRange id = true ∧
    service.storage.GetOneAccountById id = .ok account ∧
    payload.PrivateKeyID = some privateKeyID ∧
    service.keys.KeyAvailable privateKeyID = true ∧
    account.AcmeAccountKey service = .ok oldKey ∧
    service.storage.GetOneKeyById privateKeyID = .ok newKey ∧
    service.lib.CryptoPrivateKey newKey = .ok newCryptoKey ∧
    service.acmeServerService.AcmeService 0 account.AcmeServer.ID = .ok acmeService

/-- The function `nameValid` of validation.go. -/
def nameValid (service : Service) (accountName : String) (accountId : Option Int) : Bool :=
  -- basic check
  if !service.lib.NameValid accountName then false
  else
    -- make sure the name isn't already in use in storage
    match service.storage.GetOneAccountByName accountName with
    | .error err =>
      -- no rows means name is not in use (valid); any other error, invalid
      if errorsIs err .ErrNoRecord then true else false
    | .ok account =>
      -- if the returned account is the account being edited, name valid
      match accountId with
      | some id => if account.ID = id then true else false
      | none => false

/-- One round of the loop of `GetUsableAccounts` at index `i`: the slice as it
has been rewritten so far, and `newIndex`.  An account that is kept is written
to position `newIndex` of the same slice. -/
def GetUsableAccounts.step (st : List Account × Nat) (i : Nat) : List Account × Nat :=
  match st.1[i]? with
  | none => st
  | some a =>
    if a.Status = "valid" ∧ a.AcceptedTos = true then (st.1.set st.2 a, st.2 + 1)
    else st

/-- The function `GetUsableAccounts` of validation.go: the loop runs over the
indices of the slice that storage returned, then the slice is truncated to
`newIndex`. -/
def GetUsableAccounts (service : Service) : Except GoError (List Account) :=
  match service.storage.GetAllAccounts with
  | .error err => .error err
  | .ok (accounts, _) =>
    -- rewrite accounts in place with only valid accounts
    let st := (List.range accounts.length).foldl GetUsableAccounts.step (accounts, 0)
    -- truncate accounts
    .ok (st.1.take st.2)

/-- The loop of `AccountUsable` over the usable accounts. -/
def AccountUsable.loop (accountId : Int) : List Account → Bool × Option Account
  | [] => (false, none)
  | a :: rest => if a.ID = accountId then (true, some a) else AccountUsable.loop accountId rest

/-- The function `AccountUsable` of validation.go: the flag and the pointer to
the account (`none` is nil). -/
def AccountUsable (service : Service) (accountId : Int) : Bool × Option Account :=
  -- get usable accounts list
  match GetUsableAccounts service with
  | .error _ => (false, none)
  | .ok accounts =>
    -- verify specified account id is usable
    AccountUsable.loop accountId accounts

/-- An account that `GetUsableAccounts` keeps. -/
def usable (a : Account) : Bool := a.Status == "valid" && a.AcceptedTos

end acme_accounts

/-! ## pkg/storage/sqlite -/

namespace pagination_sort

/-- Modelled from the spec: package `pagination_sort` is outside the available
sources.  A query is given by what its four methods return to the storage
layer. -/
structure Query where
  SortField : String
  SortDirection : String
  Limit : Int
  Offset : Int
  deriving DecidableEq, Repr

end pagination_sort

namespace private_keys

/-- The payload of a key update, as `PutKeyUpdate` reads it: the id, the time
of the update and six optional fields, a nil pointer being SQL null. -/
structure UpdatePayload where
  ID : Int
  Name : Option String
  Description : Option String
  ApiKey : Option String
  ApiKeyNew : Option String
  ApiKeyDisabled : Option Bool
  ApiKeyViaUrl : Option Bool
  UpdatedAt : Int
  deriving DecidableEq, Repr

end private_keys

namespace sqlite

/-- The error `sql.ErrNoRows` of package `database/sql`. -/
def sqlErrNoRows : GoError := .foreign "sql: no rows in result set"

/-- A row of table `private_keys`, which is also what `Scan` fills: the
columns in the order of the SELECT lists of keys_get.go. -/
structure keyDb where
  id : Int
  name : String
  description : String
  algorithmValue : String
  pem : String
  apiKey : String
  apiKeyNew : String
  apiKeyDisabled : Bool
  apiKeyViaUrl : Bool
  createdAt : Int
  updatedAt : Int
  deriving DecidableEq, Repr

/-- Modelled from the spec: the method `toKey` of `keyDb` is outside the
available sources; the key record of the domain carries the columns of its
row, each scanned column becoming the field of the same name. -/
def keyDb.toKey (k : keyDb) : private_keys.Key :=
  { ID := k.id
    Name := k.name
    Description := k.description
    Algorithm := k.algorithmValue
    Pem := k.pem
    ApiKey := k.apiKey
    ApiKeyNew := k.apiKeyNew
    ApiKeyDisabled := k.apiKeyDisabled
    ApiKeyViaUrl := k.apiKeyViaUrl
    CreatedAt := k.createdAt
    UpdatedAt := k.updatedAt }

/-- A row of table `acme_servers` (createDBTablesV6). -/
structure acmeServerRow where
  id : Int
  name : String
  description : String
  directory_url : String
  is_staging : Bool
  created_at : Int
  updated_at : Int
  deriving DecidableEq, Repr

/-- A row of table `acme_accounts` (createDBTablesV6). -/
structure acmeAccountRow where
  id : Int
  name : String
  private_key_id : Int
  description : String
  status : String
  email : String
  accepted_tos : Bool
  created_at : Int
  updated_at : Int
  kid : String
  acme_server_id : Int
  deriving DecidableEq, Repr

/-- A row of table `certificates` (createDBTablesV6). -/
structure certificateRow where
  id : Int
  private_key_id : Int
  acme_account_id : Int
  name : String
  description : String
  subject : String
  subject_alts : String
  csr_org : String
  csr_ou : String
  csr_country : String
  csr_state : String
  csr_city : String
  csr_extra_extensions : String
  api_key : String
  api_key_new : String
  api_key_via_url : Bool
  created_at : Int
  updated_at : Int
  post_processing_command : String
  post_processing_environment : String
  post_processing_client_key : String
  deriving DecidableEq, Repr

/-- A row of table `acme_orders` (createDBTablesV6); a column without NOT NULL
may be null. -/
structure acmeOrderRow where
  id : Int
  acme_account_id : Int
  certificate_id : Int
  acme_location : String
  status : String
  known_revoked : Bool
  error : Option String
  expires : Option Int
  dns_identifiers : String
  authorizations : String
  finalize : String
  finalized_key_id : Option Int
  certificate_url : Option String
  pem : Option String
  valid_from : Option Int
  valid_to : Option Int
  created_at : Int
  updated_at : Int
  deriving DecidableEq, Repr

/-- A row of table `users` (createDBTablesV6). -/
structure userRow where
  id : Int
  username : String
  password_hash : String
  created_at : Int
  updated_at : Int
  deriving DecidableEq, Repr

/-- The state of the database: the value of `PRAGMA user_version` and the rows
of the six tables, each table in the order in which the engine scans it. -/
structure Database where
  user_version : Int
  acme_servers : List acmeServerRow
  private_keys : List keyDb
  acme_accounts : List acmeAccountRow
  certificates : List certificateRow
  acme_orders : List acmeOrderRow
  users : List userRow
  deriving DecidableEq, Repr

/-- What the engine does to the database calls of one run besides executing
them: `fail n` is the error with which call number `n` of the run fails (for
example a timeout of the context or a constraint that the statement breaks),
and `cut` is the number of rows after which `rows.Next` reports the end
early. -/
structure Engine where
  fail : Nat → Option GoError
  cut : Option Nat

/-- The bytes of one character in UTF-8, from its code. -/
def utf8Char (n : Nat) : List Nat :=
  if n < 128 then [n]
  else if n < 2048 then [192 + n / 64, 128 + n % 64]
  else if n < 65536 then [224 + n / 4096, 128 + n / 64 % 64, 128 + n % 64]
  else [240 + n / 262144, 128 + n / 4096 % 64, 128 + n / 64 % 64, 128 + n % 64]

/-- The bytes of the characters of a text, as the database stores it. -/
def utf8List : List Char → List Nat
  | [] => []
  | c :: cs => utf8Char c.toNat ++ utf8List cs

/-- The bytes of a text. -/
def utf8 (s : String) : List Nat := utf8List s.toList

/-- The case folding of NOCASE on one byte: the 26 upper case letters of
ASCII become lower case. -/
def foldByte (b : Nat) : Nat := if 65 ≤ b ∧ b ≤ 90 then b + 32 else b

/-- The bytes up to the first byte 0, that byte included. -/
def cutAfterNul : List Nat → List Nat
  | [] => []
  | b :: rest => if b = 0 then [0] else b :: cutAfterNul rest

/-- What the collation NOCASE of the `name` columns compares first: the bytes
of the text, folded, up to its first byte 0.  The engine compares two texts
byte by byte over the length of the shorter one and stops at a byte 0 of the
first; texts that this does not tell apart are compared by their lengths in
bytes. -/
def nocaseFold (s : String) : List Nat := cutAfterNul ((utf8 s).map foldByte)

/-- Equality of two texts under NOCASE. -/
def nocaseEq (a b : String) : Bool :=
  nocaseFold a == nocaseFold b && (utf8 a).length == (utf8 b).length

/-- The order of two texts under NOCASE. -/
def nocaseLe (a b : String) : Prop :=
  nocaseFold a < nocaseFold b ∨
    (nocaseFold a = nocaseFold b ∧ (utf8 a).length ≤ (utf8 b).length)

instance nocaseLe.decidable (a b : String) : Decidable (nocaseLe a b) :=
  inferInstanceAs (Decidable (nocaseFold a < nocaseFold b ∨
    (nocaseFold a = nocaseFold b ∧ (utf8 a).length ≤ (utf8 b).length)))

/-- The rows a result set delivers to the loop over `rows.Next`. -/
def Engine.deliver {α : Type} (engine : Engine) (rows : List α) : List α :=
  match engine.cut with
  | none => rows
  | some n => rows.take n

/-- The sort column of `GetAllKeys`: lines 16 to 26 of keys_get.go. -/
def GetAllKeys.sortField (q : pagination_sort.Query) : String :=
  let sortField := q.SortField
  if sortField = "id" then sortField
  else if sortField = "name" then sortField
  else if sortField = "description" then sortField
  else if sortField = "algorithm" then sortField
  -- default if not in allowed list
  else "name"

/-- The query text of `GetAllKeys`: lines 28 to 50 of keys_get.go. -/
def GetAllKeys.query (q : pagination_sort.Query) : String :=
  let sort := GetAllKeys.sortField q ++ " " ++ q.SortDirection
  "\n\tSELECT\n\t\tid, name, description, algorithm, pem, api_key, api_key_new, api_key_disabled,\n\t\tapi_key_via_url, created_at, updated_at,\n\n\t\tcount(*) OVER() AS full_count\n\tFROM\n\t\tprivate_keys\n\tORDER BY\n\t\t"
    ++ sort ++ "\n\tLIMIT\n\t\t$1\n\tOFFSET\n\t\t$2\n\t"

/-- The loop of `GetAllKeys` over the rows of the result: row `i` is scanned
by call number `i + 1` of the run; `totalRows` is overwritten by every row. -/
def GetAllKeys.scan (engine : Engine) :
    Nat → List (keyDb × Int) → List private_keys.Key → Int →
      Except GoError (List private_keys.Key × Int)
  | _, [], allKeys, totalRows => .ok (allKeys, totalRows)
  | i, (oneKeyDb, fullCount) :: rest, allKeys, _ =>
    match engine.fail (i + 1) with
    | some err => .error err
    | none => GetAllKeys.scan engine (i + 1) rest (allKeys ++ [oneKeyDb.toKey]) fullCount

/-- The function `GetAllKeys` of keys_get.go.  The sort order comes out of
text that the query carries, so the engine is given by what it answers to a
query text with its two arguments: the rows, each with its `full_count`. -/
def GetAllKeys (QueryContext : String → Int → Int → List (keyDb × Int)) (engine : Engine)
    (q : pagination_sort.Query) : Except GoError (List private_keys.Key × Int) :=
  -- do query
  match engine.fail 0 with
  | some err => .error err
  | none =>
    GetAllKeys.scan engine 0
      (engine.deliver (QueryContext (GetAllKeys.query q) q.Limit q.Offset)) [] 0

/-- The result set of the query of `getOneKey`, `WHERE id = $1 OR name = $2`.
Both columns are indexed (primary key, unique), and the engine answers the OR
term by term: first the rows with the id, then the rows with the name that it
has not given yet. -/
def getOneKey.rows (db : Database) (id : Int) (name : String) : List keyDb :=
  (db.private_keys.filter fun r => r.id == id) ++
    db.private_keys.filter fun r => !(r.id == id) && nocaseEq r.name name

/-- The function `getOneKey` of keys_get.go, as call number `n` of a run: the
rows that match `id = $1 OR name = $2`, of which `Scan` takes the first. -/
def getOneKey (db : Database) (engine : Engine) (n : Nat) (id : Int) (name : String) :
    Except GoError private_keys.Key :=
  let rows := getOneKey.rows db id name
  let scan : Except GoError keyDb :=
    match engine.fail n with
    | some err => .error err
    | none =>
      match rows.head? with
      | none => .error sqlErrNoRows
      | some oneKeyDb => .ok oneKeyDb
  match scan with
  | .error err =>
    -- if no record exists
    .error (if errorsIs err sqlErrNoRows then GoError.ErrNoRecord else err)
  | .ok oneKeyDb =>
    -- convert to KeyExtended
    .ok oneKeyDb.toKey

/-- GetOneKeyById returns a key based on unique id. -/
def GetOneKeyById (db : Database) (engine : Engine) (n : Nat) (id : Int) :
    Except GoError private_keys.Key :=
  getOneKey db engine n id ""

/-- GetOneKeyByName returns a key based on unique name. -/
def GetOneKeyByName (db : Database) (engine : Engine) (n : Nat) (name : String) :
    Except GoError private_keys.Key :=
  getOneKey db engine n (-1) name

/-- The WHERE clause of `GetAvailableKeys`: neither NOT EXISTS subquery finds
a row for the key. -/
def availableWhere (db : Database) (pk : keyDb) : Bool :=
  !(db.acme_accounts.any fun aa => pk.id == aa.private_key_id) &&
    !(db.certificates.any fun c => pk.id == c.private_key_id)

/-- The result set of the query of `GetAvailableKeys`: the rows of
`private_keys` that pass the WHERE clause, in `ORDER BY name`, which compares
as the column is declared (NOCASE). -/
def availableRows (db : Database) : List keyDb :=
  (db.private_keys.filter (availableWhere db)).insertionSort
    fun a b => nocaseLe a.name b.name

/-- The loop of `GetAvailableKeys` over the rows of the result: row `i` is
scanned by call number `i + 1` of the run. -/
def GetAvailableKeys.scan (engine : Engine) :
    Nat → List keyDb → List private_keys.Key → Except GoError (List private_keys.Key)
  | _, [], availableKeys => .ok availableKeys
  | i, oneKeyDb :: rest, availableKeys =>
    match engine.fail (i + 1) with
    | some err => .error err
    | none => GetAvailableKeys.scan engine (i + 1) rest (availableKeys ++ [oneKeyDb.toKey])

/-- The function `GetAvailableKeys` of keys_get.go. -/
def GetAvailableKeys (db : Database) (engine : Engine) :
    Except GoError (List private_keys.Key) :=
  match engine.fail 0 with
  | some err => .error err
  | none => GetAvailableKeys.scan engine 0 (engine.deliver (availableRows db)) []

/-- The SET list of the UPDATE of `PutKeyUpdate` on one row: each of the six
columns keeps its value when the parameter is null and takes the parameter
otherwise; `updated_at` takes its parameter. -/
def PutKeyUpdate.set (payload : private_keys.UpdatePayload) (r : keyDb) : keyDb :=
  { r with
    name := match payload.Name with
      | none => r.name
      | some v => v
    description := match payload.Description with
      | none => r.description
      | some v => v
    apiKey := match payload.ApiKey with
      | none => r.apiKey
      | some v => v
    apiKeyNew := match payload.ApiKeyNew with
      | none => r.apiKeyNew
      | some v => v
    apiKeyDisabled := match payload.ApiKeyDisabled with
      | none => r.apiKeyDisabled
      | some v => v
    apiKeyViaUrl := match payload.ApiKeyViaUrl with
      | none => r.apiKeyViaUrl
      | some v => v
    updatedAt := payload.UpdatedAt }

/-- The function `PutKeyUpdate` of keys_put.go: the key or the error, and the
database after the call.  The UPDATE is call number 0 of the run and changes
the rows `WHERE id = $8`; the re-read is call number 1. -/
def PutKeyUpdate (db : Database) (engine : Engine) (payload : private_keys.UpdatePayload) :
    Except GoError private_keys.Key × Database :=
  match engine.fail 0 with
  | some err => (.error err, db)
  | none =>
    let db1 : Database :=
      { db with
        private_keys := db.private_keys.map fun r =>
          if r.id = payload.ID then PutKeyUpdate.set payload r else r }
    -- get updated key to return
    match GetOneKeyById db1 engine 1 payload.ID with
    | .error err => (.error err, db1)
    | .ok updatedKey => (.ok updatedKey, db1)

/-- The UPDATE of `migrateV5toV6` on one row of `certificates`:
`SET name = serverdefault WHERE name = legocerthub`, the comparison being that
of the column (NOCASE). -/
def migrateV5toV6.rename (c : certificateRow) : certificateRow :=
  if nocaseEq c.name "legocerthub" then { c with name := "serverdefault" } else c

/-- The function `migrateV5toV6` of setup_migrate_v6.go: the returned version
and error, and the database after the call.  The statements work on the state
of the transaction; only `Commit` installs it, and every earlier return leaves
the database to the deferred `Rollback`.  The calls of the run are numbered:
0 `BeginTx`, 1 the read of `user_version`, 2 the UPDATE, 3 the write of
`user_version`, 4 `Commit`.  The two lines written to the log are not
represented. -/
def migrateV5toV6 (db : Database) (engine : Engine) : (Int × Option GoError) × Database :=
  let oldSchemaVer : Int := 5
  let newSchemaVer : Int := 6
  -- create sql transaction to roll back in the event an error occurs
  match engine.fail 0 with
  | some err => ((-1, some err), db)
  | none =>
  let tx : Database := db
  -- verify correct current ver
  match engine.fail 1 with
  | some err => ((-1, some err), db)
  | none =>
  let fileUserVersion := tx.user_version
  if fileUserVersion ≠ oldSchemaVer then
    ((-1, some (.new ("cannot update db schema, current version " ++ toString fileUserVersion
      ++ " (expected " ++ toString oldSchemaVer ++ ")"))), db)
  else
  -- if it exists, rename certificate legocerthub to serverdefault
  match engine.fail 2 with
  | some err => ((-1, some err), db)
  | none =>
  let tx : Database := { tx with certificates := tx.certificates.map migrateV5toV6.rename }
  -- update user_version
  match engine.fail 3 with
  | some err => ((-1, some err), db)
  | none =>
  let tx : Database := { tx with user_version := newSchemaVer }
  -- no errors, commit transaction
  match engine.fail 4 with
  | some err => ((-1, some err), db)
  | none => ((newSchemaVer, none), tx)

/-- What the UPDATE of `PutKeyUpdate` is to do to a row `r` with the id of the
payload, `r1` being the row afterwards: each of the six columns has the value
of its payload field when that is not null and its old value when it is null,
`updated_at` has the time of the payload, and id, algorithm, pem and
`created_at` are as before. -/
def PutKeyUpdate.updates (payload : private_keys.UpdatePayload) (r r1 : keyDb) : Prop :=
  (∀ v, payload.Name = some v → r1.name = v) ∧
  (payload.Name = none → r1.name = r.name) ∧
  (∀ v, payload.Description = some v → r1.description = v) ∧
  (payload.Description = none → r1.description = r.description) ∧
  (∀ v, payload.ApiKey = some v → r1.apiKey = v) ∧
  (payload.ApiKey = none → r1.apiKey = r.apiKey) ∧
  (∀ v, payload.ApiKeyNew = some v → r1.apiKeyNew = v) ∧
  (payload.ApiKeyNew = none → r1.apiKeyNew = r.apiKeyNew) ∧
  (∀ v, payload.ApiKeyDisabled = some v → r1.apiKeyDisabled = v) ∧
  (payload.ApiKeyDisabled = none → r1.apiKeyDisabled = r.apiKeyDisabled) ∧
  (∀ v, payload.ApiKeyViaUrl = some v → r1.apiKeyViaUrl = v) ∧
  (payload.ApiKeyViaUrl = none → r1.apiKeyViaUrl = r.apiKeyViaUrl) ∧
  r1.updatedAt = payload.UpdatedAt ∧
  r1.id = r.id ∧ r1.algorithmValue = r.algorithmValue ∧ r1.pem = r.pem ∧
  r1.createdAt = r.createdAt

end sqlite

/-! ## The lock `mgr.mu` -/

namespace providers

/-- What a step of a goroutine is to the lock `mgr.mu`: one of the four lock
operations, an access to the provider set (a lookup or a mutation), or a step
that concerns neither. -/
inductive MuOp where
  | Lock
  | Unlock
  | RLock
  | RUnlock
  | registry
  | other
  deriving DecidableEq, Repr

/-- What each call of `CreateProvider` is to the lock: the two `unsafe` calls
read and change the provider set. -/
def Event.muOp : Event → MuOp
  | .muLock => .Lock
  | .muUnlock => .Unlock
  | .unsafeAddProvider _ _ => .registry
  | .unsafeWriteProvidersConfig => .registry
  | .decodeBody => .other
  | .loggerDebug => .other
  | .loggerError => .other
  | .WriteJSON _ => .other

/-- The state of the lock: the goroutine that holds it exclusively, and the
goroutines that hold it for reading. -/
structure MuState where
  writer : Option Nat
  readers : List Nat
  deriving DecidableEq, Repr

/-- Modelled from the spec: the declaration of `mgr.mu` and the other users of
the lock are outside the available sources.  The spec says that mutations take
an exclusive lock that blocks all lookups and other mutations for their
duration.  A step of goroutine `g` that cannot proceed in state `s` is `none`:
`Lock` needs the lock free, `RLock` needs no exclusive holder, a goroutine
releases only what it holds, and the provider set is accessed only by a
goroutine that holds the lock. -/
def MuState.step (s : MuState) (g : Nat) : MuOp → Option MuState
  | .Lock =>
    if s.writer = none ∧ s.readers = [] then some { writer := some g, readers := [] }
    else none
  | .Unlock =>
    if s.writer = some g then some { writer := none, readers := s.readers } else none
  | .RLock =>
    if s.writer = none then some { writer := none, readers := g :: s.readers } else none
  | .RUnlock =>
    if g ∈ s.readers then some { writer := s.writer, readers := s.readers.erase g }
    else none
  | .registry => if s.writer = some g ∨ g ∈ s.readers then some s else none
  | .other => some s

/-- Running a schedule, a list of steps each tagged with its goroutine, from a
lock state: the final state, or `none` if some step could not proceed there. -/
def MuState.run (s : MuState) : List (Nat × MuOp) → Option MuState
  | [] => some s
  | (g, op) :: rest =>
    match s.step g op with
    | none => none
    | some s1 => s1.run rest

/-- The steps of goroutine `g` in a schedule, in order. -/
def stepsOf (g : Nat) (sched : List (Nat × MuOp)) : List MuOp :=
  (sched.filter (fun x => x.1 == g)).map (fun x => x.2)

end providers

/-! ## Concrete inputs -/

namespace providers

def cfgAcmeSh : dns01acmesh.Config :=
  { AcmeShPath := "/opt/acme.sh", Environment := [], DnsHook := "dns_cf" }

def cfgManual : dns01manual.Config :=
  { Environment := [], CreateScript := "create.sh", DeleteScript := "delete.sh" }

/-- A payload with two backend configs. -/
def payloadTwo : newPayload :=
  { Domains := ["a.example.com"]
    Http01InternalConfig := some { raw := "port 8080" }
    Dns01ManualConfig := some cfgManual
    Dns01AcmeDnsConfig := none
    Dns01AcmeShConfig := none
    Dns01CloudflareConfig := none
    Dns01GoAcmeConfig := none }

/-- A payload with the acme.sh config only. -/
def payloadAcmeSh : newPayload :=
  { Domains := ["a.example.com"]
    Http01InternalConfig := none
    Dns01ManualConfig := none
    Dns01AcmeDnsConfig := none
    Dns01AcmeShConfig := some cfgAcmeSh
    Dns01CloudflareConfig := none
    Dns01GoAcmeConfig := none }

def reqTwo : Request := { body := .ok payloadTwo }

def reqAcmeSh : Request := { body := .ok payloadAcmeSh }

/-- A host on which no executable is found on the path. -/
def hostNoBash : dns01acmesh.Host :=
  { GOOS := "linux"
    LookPath := fun _ => .error (.foreign "executable file not found in $PATH")
    ReadFile := fun _ => .ok []
    StatNotExist := fun _ => false
    Mkdir := fun _ => none
    Create := fun _ => none
    Write := fun _ _ => none
    NewParams := fun l => ({ entries := l }, []) }

def appWithLogger : dns01acmesh.App := { GetLogger := some { name := "app" } }

/-- A host with bash, on which acme.sh is readable and the hook script
`dns_cf.sh` is not. -/
def hostNoHook : dns01acmesh.Host :=
  { GOOS := "linux"
    LookPath := fun _ => .ok "/bin/bash"
    ReadFile := fun path =>
      if path = "/opt/acme.sh/acme.sh" then .ok [35, 33, 10]
      else .error (.foreign "no such file or directory")
    StatNotExist := fun _ => false
    Mkdir := fun _ => none
    Create := fun _ => none
    Write := fun _ _ => none
    NewParams := fun l => ({ entries := l }, []) }

/-- A host with bash, on which both scripts are readable. -/
def hostOk : dns01acmesh.Host :=
  { GOOS := "linux"
    LookPath := fun _ => .ok "/bin/bash"
    ReadFile := fun path =>
      if path = "/opt/acme.sh/acme.sh" then .ok [35, 33, 10, 109, 97, 105, 110, 32, 34, 36, 64, 34]
      else if path = "/opt/acme.sh/dnsapi/dns_cf.sh" then .ok [100, 110, 115]
      else .error (.foreign "no such file or directory")
    StatNotExist := fun _ => true
    Mkdir := fun _ => none
    Create := fun _ => none
    Write := fun _ _ => none
    NewParams := fun l => ({ entries := l }, []) }

def providerOne : provider :=
  { ID := 0, Tag := "tag", Type_ := "dns01acmesh", Domains := ["a.example.com"],
    Config := .dns01acmesh cfgAcmeSh }

/-- A manager whose `unsafeAddProvider` constructs the acme.sh backend with
`NewService` on `hostNoBash` and hands its error back. -/
def mgrNoBash : Manager :=
  { unsafeAddProvider := fun domains cfg =>
      match cfg with
      | .dns01acmesh c =>
        match (dns01acmesh.NewService hostNoBash appWithLogger (some c)).1 with
        | .error err => (none, some err)
        | .ok _ =>
          (some { ID := 0, Tag := "tag", Type_ := "dns01acmesh", Domains := domains,
                  Config := cfg }, none)
      | _ => (none, some (.new "unsupported provider config"))
    unsafeWriteProvidersConfig := none
    WriteJSON := fun _ => none }

/-- A manager whose `unsafeAddProvider` rejects the domains. -/
def mgrDomainTaken : Manager :=
  { unsafeAddProvider := fun _ _ => (none, some (.new "domain already claimed"))
    unsafeWriteProvidersConfig := none
    WriteJSON := fun _ => none }

/-- A manager on which every call succeeds. -/
def mgrOk : Manager :=
  { unsafeAddProvider := fun _ _ => (some providerOne, none)
    unsafeWriteProvidersConfig := none
    WriteJSON := fun _ => none }

/-- A manager on which the add succeeds and the configuration write fails. -/
def mgrWriteFails : Manager :=
  { unsafeAddProvider := fun _ _ => (some providerOne, none)
    unsafeWriteProvidersConfig := some (.foreign "disk full")
    WriteJSON := fun _ => none }

/-- A manager on which the add and the configuration write succeed and the
response cannot be written. -/
def mgrJsonFails : Manager :=
  { unsafeAddProvider := fun _ _ => (some providerOne, none)
    unsafeWriteProvidersConfig := none
    WriteJSON := fun _ => some (.foreign "broken pipe") }

/-- A schedule in which goroutine 1 runs `CreateProvider mgrOk reqAcmeSh`
between a lookup and a mutation of goroutine 2. -/
def schedPre : List (Nat × MuOp) := [(2, .RLock), (2, .registry), (2, .RUnlock)]

def schedMid : List (Nat × MuOp) :=
  [(1, .other), (2, .other), (1, .registry), (1, .registry), (2, .other), (1, .other)]

def schedPost : List (Nat × MuOp) := [(2, .Lock), (2, .registry), (2, .Unlock)]

def muFree : MuState := { writer := none, readers := [] }

end providers

namespace acme_accounts

def serverOne : acme_servers.Server :=
  { ID := 1, Name := "ca", DirectoryURL := "https://ca.example/directory", IsStaging := false }

def keyOne : private_keys.Key :=
  { ID := 1, Name := "key-one", Description := "", Algorithm := "ecdsap256",
    Pem := "PEM-ONE", ApiKey := "", ApiKeyNew := "", ApiKeyDisabled := false,
    ApiKeyViaUrl := false, CreatedAt := 0, UpdatedAt := 0 }

/-- A registered account in status `valid`. -/
def accountValid : Account :=
  { ID := 7, Name := "acct", Description := "", AcmeServer := serverOne,
    AccountKey := keyOne, Status := "valid", Email := "a@example.com",
    AcceptedTos := true, CreatedAt := 0, UpdatedAt := 0,
    Kid := "https://ca.example/acct/7" }

/-- The same account after deactivation. -/
def accountDeactivated : Account := { accountValid with Status := "deactivated" }

/-- A CA on which every call succeeds. -/
def caOk : acme.Service :=
  { NewAccount := fun _ _ => .ok { raw := "registered" }
    UpdateAccount := fun _ _ => .ok { raw := "updated" }
    DeactivateAccount := fun _ => .ok { raw := "deactivated" }
    RolloverAccountKey := fun _ _ => none
    RequiresEAB := false
    TosUrl := "https://ca.example/tos" }

def libOk : Lib :=
  { Atoi := fun s => if s = "7" then .ok 7 else .error (.foreign "invalid syntax")
    PemStringToKey := fun pem _ => .ok { handle := pem }
    CryptoPrivateKey := fun k => .ok { handle := k.Pem }
    EmailValid := fun s => s == "b@example.com"
    NameValid := fun _ => true
    IsIdExistingValidRange := fun id => decide (0 ≤ id)
    emailToContact := fun e => if e = "" then [] else ["mailto:" ++ e]
    now := 1700000000 }

/-- A service whose storage holds the one given account; the keys 2 and 3 are
available. -/
def serviceFor (account : Account) : Service :=
  { storage :=
      { GetOneAccountById := fun id =>
          if id = account.ID then .ok account else .error .ErrNoRecord
        GetOneKeyById := fun id => .ok { keyOne with ID := id, Name := "key-new" }
        PutAcmeAccountResponse := fun _ => .ok account
        PutNewAccountKey := fun _ => .ok account
        GetAllAccounts := .ok ([account], 1)
        GetOneAccountByName := fun name =>
          if name = account.Name then .ok account else .error .ErrNoRecord }
    keys := { KeyAvailable := fun id => id == 2 || id == 3 }
    acmeServerService := { AcmeService := fun _ _ => .ok caOk }
    output := { WriteJSON := fun _ => none }
    lib := libOk }

/-- A second account, in status `valid` but without accepted terms. -/
def accountNoTos : Account :=
  { accountValid with ID := 8, Name := "acct-no-tos", AcceptedTos := false }

/-- A third account, usable like `accountValid`. -/
def accountThird : Account := { accountValid with ID := 9, Name := "acct-third" }

/-- A service whose storage lists the given accounts. -/
def serviceListing (accounts : List Account) : Service :=
  { serviceFor accountValid with
    storage :=
      { (serviceFor accountValid).storage with
        GetAllAccounts := .ok (accounts, accounts.length) } }

/-- A service whose storage fails every account query. -/
def serviceStorageDown : Service :=
  { serviceFor accountValid with
    storage :=
      { (serviceFor accountValid).storage with
        GetAllAccounts := .error (.foreign "database is locked")
        GetOneAccountByName := fun _ => .error (.foreign "database is locked") } }

def reqSeven : Request Unit := { idParam := "7", body := .ok () }

def reqRegister : Request registerPayload :=
  { idParam := "7", body := .ok { EabKid := "", EabHmacKey := "" } }

def reqEmail (email : Option String) : Request changeEmailPayload :=
  { idParam := "7", body := .ok { Email := email } }

def reqRollover (privateKeyID : Option Int) : Request RolloverKeyPayload :=
  { idParam := "7", body := .ok { ID := 0, PrivateKeyID := privateKeyID, UpdatedAt := 0 } }

end acme_accounts

namespace sqlite

/-- An engine that lets every call proceed and delivers every row. -/
def engineOk : Engine := { fail := fun _ => none, cut := none }

/-- An engine on which no call fails and the iteration over a result set
ends after the first row, as when the deadline of `store.timeout` passes
between two rows. -/
def engineCutOne : Engine := { fail := fun _ => none, cut := some 1 }

/-- An engine on which `Commit`, call number 4 of a run, fails. -/
def engineCommitFails : Engine :=
  { fail := fun n => if n = 4 then some (.foreign "database is locked") else none
    cut := none }

def keyRowOne : keyDb :=
  { id := 1, name := "key-one", description := "", algorithmValue := "ecdsap256",
    pem := "PEM-ONE", apiKey := "k1", apiKeyNew := "", apiKeyDisabled := false,
    apiKeyViaUrl := false, createdAt := 10, updatedAt := 10 }

def keyRowTwo : keyDb := { keyRowOne with id := 2, name := "Beta", pem := "PEM-TWO" }

def keyRowThree : keyDb := { keyRowOne with id := 3, name := "alpha", pem := "PEM-THREE" }

/-- A key row whose name is the empty text. -/
def keyRowNoName : keyDb := { keyRowOne with id := 1, name := "" }

/-- A key row whose id is -1. -/
def keyRowMinusOne : keyDb := { keyRowOne with id := -1, name := "odd" }

def accountRowOne : acmeAccountRow :=
  { id := 1, name := "acct", private_key_id := 1, description := "", status := "valid",
    email := "a@example.com", accepted_tos := true, created_at := 10, updated_at := 10,
    kid := "https://ca.example/acct/7", acme_server_id := 1 }

def certRowOne : certificateRow :=
  { id := 1, private_key_id := 4, acme_account_id := 1, name := "legocerthub",
    description := "", subject := "host.example.com", subject_alts := "[]", csr_org := "",
    csr_ou := "", csr_country := "", csr_state := "", csr_city := "",
    csr_extra_extensions := "[]", api_key := "c1", api_key_new := "",
    api_key_via_url := false, created_at := 10, updated_at := 10,
    post_processing_command := "", post_processing_environment := "[]",
    post_processing_client_key := "" }

def certRowTwo : certificateRow := { certRowOne with id := 2, private_key_id := 5, name := "www" }

/-- A database at version 5 with three keys, of which key 1 belongs to an
account, and two certificates. -/
def dbFive : Database :=
  { user_version := 5
    acme_servers := []
    private_keys := [keyRowOne, keyRowTwo, keyRowThree]
    acme_accounts := [accountRowOne]
    certificates := [certRowOne, certRowTwo]
    acme_orders := []
    users := [] }

/-- The same database at version 4. -/
def dbFour : Database := { dbFive with user_version := 4 }

/-- A database whose only key has the empty name. -/
def dbNoName : Database := { dbFive with private_keys := [keyRowNoName] }

/-- A database whose only key has the id -1. -/
def dbMinusOne : Database := { dbFive with private_keys := [keyRowMinusOne] }

/-- An update of the description and the disabled flag of key 2. -/
def payloadTwo : private_keys.UpdatePayload :=
  { ID := 2, Name := none, Description := some "rotated", ApiKey := none,
    ApiKeyNew := none, ApiKeyDisabled := some true, ApiKeyViaUrl := none,
    UpdatedAt := 99 }

/-- An update of the description of a key with id 5. -/
def payloadFive : private_keys.UpdatePayload :=
  { ID := 5, Name := none, Description := some "rotated", ApiKey := none,
    ApiKeyNew := none, ApiKeyDisabled := none, ApiKeyViaUrl := none,
    UpdatedAt := 99 }

/-- A database with a key of the empty name before key 2. -/
def dbNoNameTwo : Database := { dbFive with private_keys := [keyRowNoName, keyRowTwo] }

/-- A query whose sort field is not a column name. -/
def queryOdd : pagination_sort.Query :=
  { SortField := "pem; DROP TABLE users", SortDirection := "asc", Limit := 20, Offset := 0 }

def queryById : pagination_sort.Query :=
  { SortField := "id", SortDirection := "desc", Limit := 20, Offset := 0 }

end sqlite

end CertWarden

/-! # Theorems -/

namespace CertWarden

namespace providers

/-- The running count of the handler is the number of non-nil configs. -/
theorem configCount_eq_nonNilConfigs (payload : newPayload) :
    configCount payload = nonNilConfigs payload := by
  obtain ⟨d, a, b, c, e, f, g⟩ := payload
  cases a <;> cases b <;> cases c <;> cases e <;> cases f <;> cases g <;> rfl

/-- With exactly one config, the if-else chain makes one call of
`unsafeAddProvider`, on the domains of the payload. -/
theorem addSpecified_of_one (mgr : Manager) (payload : newPayload)
    (h : nonNilConfigs payload = 1) :
    ∃ cfg, addSpecified mgr payload =
      (mgr.unsafeAddProvider payload.Domains cfg,
        [Event.unsafeAddProvider payload.Domains cfg]) := by
  obtain ⟨d, a, b, c, e, f, g⟩ := payload
  cases a <;> cases b <;> cases c <;> cases e <;> cases f <;> cases g <;>
    first
    | exact ⟨_, rfl⟩
    | (exfalso; simp [nonNilConfigs] at h)

/-- C1: when the body decodes to a payload whose number of non-nil backend
configs is not exactly one, `CreateProvider` returns `ErrValidationFailed` and
its calls contain neither `unsafeAddProvider` nor `unsafeWriteProvidersConfig`. -/
theorem CreateProvider_config_count_not_one (mgr : Manager) (r : Request)
    (payload : newPayload) (hbody : r.body = .ok payload)
    (hcount : nonNilConfigs payload ≠ 1) :
    (CreateProvider mgr r).1 = some output.Error.ErrValidationFailed ∧
      ∀ ev ∈ (CreateProvider mgr r).2, ev.isAdd = false ∧ ev.isWriteConfig = false := by
  have hc : configCount payload ≠ 1 := by
    rw [configCount_eq_nonNilConfigs]; exact hcount
  simp [CreateProvider, CreateProviderBody, hbody, hc, Event.isAdd, Event.isWriteConfig]

/-- C1 on a payload with two backend configs. -/
theorem CreateProvider_config_count_not_one_witness :
    reqTwo.body = .ok payloadTwo ∧ nonNilConfigs payloadTwo ≠ 1 ∧
      (CreateProvider mgrOk reqTwo).1 = some output.Error.ErrValidationFailed ∧
      ∀ ev ∈ (CreateProvider mgrOk reqTwo).2, ev.isAdd = false ∧ ev.isWriteConfig = false :=
  ⟨rfl, by decide,
    CreateProvider_config_count_not_one mgrOk reqTwo payloadTwo rfl (by decide)⟩

/-- C2 as stated fails: on a host without bash `NewService` fails with
`errBashMissing`, and a manager whose `unsafeAddProvider` hands that
construction error back makes `CreateProvider` return the validation error
itself, the same value it returns for a rejected domain. -/
theorem CreateProvider_construction_error_not_distinct :
    (dns01acmesh.NewService hostNoBash appWithLogger (some cfgAcmeSh)).1
        = .error GoError.errBashMissing ∧
      (mgrNoBash.unsafeAddProvider payloadAcmeSh.Domains (.dns01acmesh cfgAcmeSh)).2
        = some GoError.errBashMissing ∧
      ¬ ((CreateProvider mgrNoBash reqAcmeSh).1 ≠ some output.Error.ErrValidationFailed) ∧
      (CreateProvider mgrNoBash reqAcmeSh).1 = (CreateProvider mgrDomainTaken reqAcmeSh).1 := by
  refine ⟨rfl, rfl, ?_, rfl⟩
  intro h
  exact h rfl

/-- C2 amended: every error of `unsafeAddProvider`, a backend construction
error as much as a rejected domain, makes `CreateProvider` return
`ErrValidationFailed`.  After `unsafeAddProvider` returned no error the result
is `ErrInternal` when `unsafeWriteProvidersConfig` fails, `ErrWriteJsonError`
when the configuration was written and `WriteJSON` of the 201 response fails,
and nil when both succeed.  Conversely an error other than
`ErrValidationFailed` is returned only after `unsafeAddProvider` returned no
error, and it is `ErrInternal` only with a failed configuration write and
`ErrWriteJsonError` only with a configuration write that succeeded and a failed
`WriteJSON`. -/
theorem CreateProvider_error_classes (mgr : Manager) (r : Request) :
    (∀ payload cfg p e, r.body = .ok payload → nonNilConfigs payload = 1 →
        addSpecified mgr payload =
          (mgr.unsafeAddProvider payload.Domains cfg,
            [Event.unsafeAddProvider payload.Domains cfg]) →
        mgr.unsafeAddProvider payload.Domains cfg = (p, some e) →
        (CreateProvider mgr r).1 = some output.Error.ErrValidationFailed) ∧
      (∀ payload p, r.body = .ok payload → nonNilConfigs payload = 1 →
        (addSpecified mgr payload).1 = (p, none) →
        (∀ e, mgr.unsafeWriteProvidersConfig = some e →
          (CreateProvider mgr r).1 = some output.Error.ErrInternal) ∧
        (∀ e, mgr.unsafeWriteProvidersConfig = none →
          mgr.WriteJSON { StatusCode := 201, Message := "created provider", Provider := p }
            = some e →
          (CreateProvider mgr r).1 = some output.Error.ErrWriteJsonError) ∧
        (mgr.unsafeWriteProvidersConfig = none →
          mgr.WriteJSON { StatusCode := 201, Message := "created provider", Provider := p }
            = none →
          (CreateProvider mgr r).1 = none)) ∧
      (∀ x, (CreateProvider mgr r).1 = some x → x ≠ output.Error.ErrValidationFailed →
        (x = output.Error.ErrInternal ∨ x = output.Error.ErrWriteJsonError) ∧
        ∃ payload p, r.body = .ok payload ∧ nonNilConfigs payload = 1 ∧
          (addSpecified mgr payload).1 = (p, none) ∧
          (x = output.Error.ErrInternal → ∃ e, mgr.unsafeWriteProvidersConfig = some e) ∧
          (x = output.Error.ErrWriteJsonError →
            mgr.unsafeWriteProvidersConfig = none ∧
            ∃ e, mgr.WriteJSON
              { StatusCode := 201, Message := "created provider", Provider := p } = some e)) := by
  refine ⟨?_, ?_, ?_⟩
  · intro payload cfg p e hbody hone hspec hadd
    have hc : configCount payload = 1 := by
      rw [configCount_eq_nonNilConfigs]; exact hone
    simp [CreateProvider, CreateProviderBody, hbody, hc, hspec, hadd]
  · intro payload p hbody hone hadd
    have hc : configCount payload = 1 := by
      rw [configCount_eq_nonNilConfigs]; exact hone
    rcases hs : addSpecified mgr payload with ⟨⟨p1, oe⟩, evAdd⟩
    rw [hs] at hadd
    simp only [Prod.mk.injEq] at hadd
    obtain ⟨rfl, rfl⟩ := hadd
    refine ⟨?_, ?_, ?_⟩
    · intro e hw
      simp [CreateProvider, CreateProviderBody, hbody, hc, hs, hw]
    · intro e hw hj
      simp [CreateProvider, CreateProviderBody, hbody, hc, hs, hw, hj]
    · intro hw hj
      simp [CreateProvider, CreateProviderBody, hbody, hc, hs, hw, hj]
  · intro x hx hne
    unfold CreateProvider CreateProviderBody at hx
    cases hb : r.body with
    | error err => simp [hb] at hx; exact absurd hx.symm hne
    | ok payload =>
      simp only [hb] at hx
      by_cases hc : configCount payload ≠ 1
      · simp [hc] at hx; exact absurd hx.symm hne
      · have hone : nonNilConfigs payload = 1 := by
          rw [← configCount_eq_nonNilConfigs]; exact not_not.mp hc
        rcases hs : addSpecified mgr payload with ⟨⟨p, oe⟩, evAdd⟩
        cases oe with
        | some e => simp [hc, hs] at hx; exact absurd hx.symm hne
        | none =>
          cases hw : mgr.unsafeWriteProvidersConfig with
          | some e =>
            simp [hc, hs, hw] at hx
            subst hx
            exact ⟨Or.inl rfl, payload, p, rfl, hone, (by rw [hs]), fun _ => ⟨e, rfl⟩,
              fun h => by cases h⟩
          | none =>
            cases hj : mgr.WriteJSON
                { StatusCode := 201, Message := "created provider", Provider := p } with
            | some e =>
              simp [hc, hs, hw, hj] at hx
              subst hx
              exact ⟨Or.inr rfl, payload, p, rfl, hone, (by rw [hs]), (fun h => by cases h),
                fun _ => ⟨rfl, e, hj⟩⟩
            | none => simp [hc, hs, hw, hj] at hx

/-- C2 amended, on the manager whose backend construction fails for want of
bash, on the manager whose configuration write fails and on the manager that
cannot write the response. -/
theorem CreateProvider_error_classes_witness :
    reqAcmeSh.body = .ok payloadAcmeSh ∧ nonNilConfigs payloadAcmeSh = 1 ∧
      mgrNoBash.unsafeAddProvider payloadAcmeSh.Domains (.dns01acmesh cfgAcmeSh)
        = (none, some GoError.errBashMissing) ∧
      (CreateProvider mgrNoBash reqAcmeSh).1 = some output.Error.ErrValidationFailed ∧
      (addSpecified mgrWriteFails payloadAcmeSh).1 = (some providerOne, none) ∧
      mgrWriteFails.unsafeWriteProvidersConfig = some (.foreign "disk full") ∧
      (CreateProvider mgrWriteFails reqAcmeSh).1 = some output.Error.ErrInternal ∧
      mgrJsonFails.unsafeWriteProvidersConfig = none ∧
      (CreateProvider mgrJsonFails reqAcmeSh).1 = some output.Error.ErrWriteJsonError ∧
      (∃ e, mgrJsonFails.WriteJSON
        { StatusCode := 201, Message := "created provider", Provider := some providerOne }
          = some e) :=
  ⟨rfl, by decide, rfl,
    (CreateProvider_error_classes mgrNoBash reqAcmeSh).1 payloadAcmeSh
      (.dns01acmesh cfgAcmeSh) none GoError.errBashMissing rfl (by decide) rfl rfl,
    rfl, rfl,
    ((CreateProvider_error_classes mgrWriteFails reqAcmeSh).2.1 payloadAcmeSh
      (some providerOne) rfl (by decide) rfl).1 (.foreign "disk full") rfl,
    rfl,
    ((CreateProvider_error_classes mgrJsonFails reqAcmeSh).2.1 payloadAcmeSh
      (some providerOne) rfl (by decide) rfl).2.1 (.foreign "broken pipe") rfl rfl,
    ⟨.foreign "broken pipe", rfl⟩⟩

/-- C3: when the call of `unsafeAddProvider` returns an error, `CreateProvider`
returns `ErrValidationFailed`, and its calls are exactly: lock, decode, that one
`unsafeAddProvider` call, a debug log, unlock.  It makes no call of
`unsafeWriteProvidersConfig` and writes no response. -/
theorem CreateProvider_add_error (mgr : Manager) (r : Request) (payload : newPayload)
    (p : Option provider) (e : GoError)
    (hbody : r.body = .ok payload) (hone : nonNilConfigs payload = 1)
    (hadd : (addSpecified mgr payload).1 = (p, some e)) :
    (CreateProvider mgr r).1 = some output.Error.ErrValidationFailed ∧
      (∃ cfg, mgr.unsafeAddProvider payload.Domains cfg = (p, some e) ∧
        (CreateProvider mgr r).2 =
          [Event.muLock, Event.decodeBody, Event.unsafeAddProvider payload.Domains cfg,
            Event.loggerDebug, Event.muUnlock]) ∧
      ∀ ev ∈ (CreateProvider mgr r).2, ev.isWriteConfig = false ∧ ev.isWriteJSON = false := by
  have hc : configCount payload = 1 := by
    rw [configCount_eq_nonNilConfigs]; exact hone
  obtain ⟨cfg, hspec⟩ := addSpecified_of_one mgr payload hone
  rw [hspec] at hadd
  simp only at hadd
  refine ⟨?_, ⟨cfg, hadd, ?_⟩, ?_⟩ <;>
    simp [CreateProvider, CreateProviderBody, hbody, hc, hspec, hadd,
      Event.isWriteConfig, Event.isWriteJSON]

/-- C3 on a manager that rejects the domain as already claimed. -/
theorem CreateProvider_add_error_witness :
    reqAcmeSh.body = .ok payloadAcmeSh ∧ nonNilConfigs payloadAcmeSh = 1 ∧
      (addSpecified mgrDomainTaken payloadAcmeSh).1
        = (none, some (GoError.new "domain already claimed")) ∧
      (CreateProvider mgrDomainTaken reqAcmeSh).1 = some output.Error.ErrValidationFailed ∧
      (∃ cfg, mgrDomainTaken.unsafeAddProvider payloadAcmeSh.Domains cfg
          = (none, some (GoError.new "domain already claimed")) ∧
        (CreateProvider mgrDomainTaken reqAcmeSh).2 =
          [Event.muLock, Event.decodeBody,
            Event.unsafeAddProvider payloadAcmeSh.Domains cfg,
            Event.loggerDebug, Event.muUnlock]) ∧
      ∀ ev ∈ (CreateProvider mgrDomainTaken reqAcmeSh).2,
        ev.isWriteConfig = false ∧ ev.isWriteJSON = false :=
  ⟨rfl, by decide, rfl,
    CreateProvider_add_error mgrDomainTaken reqAcmeSh payloadAcmeSh none
      (GoError.new "domain already claimed") rfl (by decide) rfl⟩

/-- C4: when `CreateProvider` returns nil, its calls are exactly: lock, decode,
one `unsafeAddProvider` call that returned no error, one
`unsafeWriteProvidersConfig` call that returned no error, the write of the 201
response `created provider`, unlock, in this order.  When the add succeeds and
the configuration write fails, it returns `ErrInternal` and writes no response. -/
theorem CreateProvider_persists_before_response (mgr : Manager) (r : Request) :
    ((CreateProvider mgr r).1 = none →
        ∃ payload cfg p, r.body = .ok payload ∧
          mgr.unsafeAddProvider payload.Domains cfg = (p, none) ∧
          mgr.unsafeWriteProvidersConfig = none ∧
          (CreateProvider mgr r).2 =
            [Event.muLock, Event.decodeBody, Event.unsafeAddProvider payload.Domains cfg,
              Event.unsafeWriteProvidersConfig,
              Event.WriteJSON
                { StatusCode := 201, Message := "created provider", Provider := p },
              Event.muUnlock] ∧
          ((CreateProvider mgr r).2.filter Event.isWriteConfig).length = 1) ∧
      (∀ payload p e, r.body = .ok payload → nonNilConfigs payload = 1 →
        (addSpecified mgr payload).1 = (p, none) →
        mgr.unsafeWriteProvidersConfig = some e →
        (CreateProvider mgr r).1 = some output.Error.ErrInternal ∧
          ∀ ev ∈ (CreateProvider mgr r).2, ev.isWriteJSON = false) := by
  constructor
  · intro hres
    unfold CreateProvider CreateProviderBody at hres
    cases hb : r.body with
    | error err => simp [hb] at hres
    | ok payload =>
      simp only [hb] at hres
      by_cases hc : configCount payload ≠ 1
      · simp [hc] at hres
      · have hone : nonNilConfigs payload = 1 := by
          rw [← configCount_eq_nonNilConfigs]; exact not_not.mp hc
        obtain ⟨cfg, hspec⟩ := addSpecified_of_one mgr payload hone
        rcases hu : mgr.unsafeAddProvider payload.Domains cfg with ⟨p, oe⟩
        cases oe with
        | some e => simp [hc, hspec, hu] at hres
        | none =>
          cases hw : mgr.unsafeWriteProvidersConfig with
          | some e => simp [hc, hspec, hu, hw] at hres
          | none =>
            cases hj : mgr.WriteJSON
                { StatusCode := 201, Message := "created provider", Provider := p } with
            | some e => simp [hc, hspec, hu, hw, hj] at hres
            | none =>
              refine ⟨payload, cfg, p, rfl, hu, rfl, ?_, ?_⟩ <;>
                simp [CreateProvider, CreateProviderBody, hb, hc, hspec, hu, hw, hj,
                  Event.isWriteConfig]
  · intro payload p e hbody hone hadd hw
    have hc : configCount payload = 1 := by
      rw [configCount_eq_nonNilConfigs]; exact hone
    obtain ⟨cfg, hspec⟩ := addSpecified_of_one mgr payload hone
    rw [hspec] at hadd
    simp only at hadd
    constructor <;>
      simp [CreateProvider, CreateProviderBody, hbody, hc, hspec, hadd, hw,
        Event.isWriteJSON]

/-- C4 on a manager where every call succeeds, and on one where the configuration write fails. -/
theorem CreateProvider_persists_before_response_witness :
    ((CreateProvider mgrOk reqAcmeSh).1 = none ∧
        ∃ payload cfg p, reqAcmeSh.body = .ok payload ∧
          mgrOk.unsafeAddProvider payload.Domains cfg = (p, none) ∧
          mgrOk.unsafeWriteProvidersConfig = none ∧
          (CreateProvider mgrOk reqAcmeSh).2 =
            [Event.muLock, Event.decodeBody, Event.unsafeAddProvider payload.Domains cfg,
              Event.unsafeWriteProvidersConfig,
              Event.WriteJSON
                { StatusCode := 201, Message := "created provider", Provider := p },
              Event.muUnlock] ∧
          ((CreateProvider mgrOk reqAcmeSh).2.filter Event.isWriteConfig).length = 1) ∧
      (mgrWriteFails.unsafeWriteProvidersConfig = some (GoError.foreign "disk full") ∧
        (CreateProvider mgrWriteFails reqAcmeSh).1 = some output.Error.ErrInternal ∧
        ∀ ev ∈ (CreateProvider mgrWriteFails reqAcmeSh).2, ev.isWriteJSON = false) :=
  ⟨⟨rfl, (CreateProvider_persists_before_response mgrOk reqAcmeSh).1 rfl⟩,
    rfl,
    (CreateProvider_persists_before_response mgrWriteFails reqAcmeSh).2 payloadAcmeSh
      (some providerOne) (GoError.foreign "disk full") rfl (by decide) rfl rfl⟩

/-- The calls of the if-else chain are no lock operations. -/
theorem addSpecified_muOp (mgr : Manager) (payload : newPayload) :
    ∀ ev ∈ (addSpecified mgr payload).2, ev.muOp = MuOp.registry ∨ ev.muOp = MuOp.other := by
  obtain ⟨d, a, b, c, e, f, g⟩ := payload
  cases a <;> cases b <;> cases c <;> cases e <;> cases f <;> cases g <;>
    simp [addSpecified, Event.muOp]

/-- The body of `CreateProvider` starts by decoding the request body and
contains no lock operation. -/
theorem CreateProviderBody_muOp (mgr : Manager) (r : Request) :
    (∃ rest, (CreateProviderBody mgr r).2 = Event.decodeBody :: rest) ∧
      ∀ ev ∈ (CreateProviderBody mgr r).2,
        ev.muOp = MuOp.registry ∨ ev.muOp = MuOp.other := by
  unfold CreateProviderBody
  cases hb : r.body with
  | error err => simp [Event.muOp]
  | ok payload =>
    by_cases hc : configCount payload ≠ 1
    · simp [hc, Event.muOp]
    · have hadd := addSpecified_muOp mgr payload
      rcases hs : addSpecified mgr payload with ⟨⟨p, oe⟩, evAdd⟩
      rw [hs] at hadd
      simp only at hadd
      cases oe with
      | some e =>
        simp only [hc, hs, if_false]
        refine ⟨⟨_, rfl⟩, ?_⟩
        intro ev hev
        simp only [List.mem_append, List.mem_cons, List.mem_singleton, List.not_mem_nil,
          or_false] at hev
        rcases hev with (h | h) | h
        · subst h; simp [Event.muOp]
        · exact hadd ev h
        · subst h; simp [Event.muOp]
      | none =>
        cases hw : mgr.unsafeWriteProvidersConfig with
        | some e =>
          simp only [hc, hs, hw, if_false]
          refine ⟨⟨_, rfl⟩, ?_⟩
          intro ev hev
          simp only [List.mem_append, List.mem_cons, List.mem_singleton, List.not_mem_nil,
            or_false] at hev
          rcases hev with (h | h) | h | h
          · subst h; simp [Event.muOp]
          · exact hadd ev h
          · subst h; simp [Event.muOp]
          · subst h; simp [Event.muOp]
        | none =>
          cases hj : mgr.WriteJSON
              { StatusCode := 201, Message := "created provider", Provider := p } with
          | some e =>
            simp only [hc, hs, hw, hj, if_false]
            refine ⟨⟨_, rfl⟩, ?_⟩
            intro ev hev
            simp only [List.mem_append, List.mem_cons, List.mem_singleton, List.not_mem_nil,
              or_false] at hev
            rcases hev with (h | h) | h | h | h
            · subst h; simp [Event.muOp]
            · exact hadd ev h
            · subst h; simp [Event.muOp]
            · subst h; simp [Event.muOp]
            · subst h; simp [Event.muOp]
          | none =>
            simp only [hc, hs, hw, hj, if_false]
            refine ⟨⟨_, rfl⟩, ?_⟩
            intro ev hev
            simp only [List.mem_append, List.mem_cons, List.mem_singleton, List.not_mem_nil,
              or_false] at hev
            rcases hev with (h | h) | h | h
            · subst h; simp [Event.muOp]
            · exact hadd ev h
            · subst h; simp [Event.muOp]
            · subst h; simp [Event.muOp]

/-- Running a schedule in two parts. -/
theorem MuState.run_append (s : MuState) (a b : List (Nat × MuOp)) :
    s.run (a ++ b) = (s.run a).bind (fun s1 => s1.run b) := by
  induction a generalizing s with
  | nil => simp [MuState.run]
  | cons x a ih =>
    obtain ⟨g, op⟩ := x
    simp only [List.cons_append, MuState.run]
    cases h : s.step g op with
    | none => simp
    | some s1 => simp [ih]

/-- While goroutine `g` holds the lock exclusively and itself performs no lock
operation, the lock state stays as it is and every step of another goroutine
that proceeds is a step that concerns neither the lock nor the provider set. -/
theorem MuState.run_held (g : Nat) (mid : List (Nat × MuOp)) (s sEnd : MuState)
    (hw : s.writer = some g) (hr : s.readers = [])
    (hops : ∀ op ∈ stepsOf g mid, op = MuOp.registry ∨ op = MuOp.other)
    (hrun : s.run mid = some sEnd) :
    sEnd = s ∧ ∀ x ∈ mid, x.1 ≠ g → x.2 = MuOp.other := by
  induction mid with
  | nil =>
    simp [MuState.run] at hrun
    exact ⟨hrun.symm, by simp⟩
  | cons x mid ih =>
    obtain ⟨u, op⟩ := x
    simp only [MuState.run] at hrun
    have hstep : s.step u op = some s ∧ (u ≠ g → op = MuOp.other) := by
      by_cases hu : u = g
      · subst hu
        have hop := hops op (by simp [stepsOf])
        rcases hop with h | h <;> subst h <;> simp [MuState.step, hw]
      · have hne : ¬ (some g = some u) := fun h => hu (Option.some.inj h).symm
        cases op <;> simp [MuState.step, hw, hr, hne, hu] at hrun ⊢
    rw [hstep.1] at hrun
    simp only at hrun
    have hops2 : ∀ op ∈ stepsOf g mid, op = MuOp.registry ∨ op = MuOp.other := by
      intro o ho
      apply hops
      simp only [stepsOf, List.filter_cons]
      split
      · simp only [List.map_cons, List.mem_cons]
        exact Or.inr ho
      · exact ho
    obtain ⟨h1, h2⟩ := ih hops2 hrun
    refine ⟨h1, ?_⟩
    intro x hx hxg
    simp only [List.mem_cons] at hx
    rcases hx with h | h
    · subst h; exact hstep.2 hxg
    · exact h2 x h hxg

/-- C5: on every path the calls of `CreateProvider` are the lock, then the
decode of the body and the other calls of the body, none of which is a lock
operation, then the unlock.  In every schedule that the lock admits and in
which a goroutine `g` runs these calls, every step another goroutine takes
between the lock and the unlock of `g` is neither a lock operation nor an
access to the provider set. -/
theorem CreateProvider_holds_lock (mgr : Manager) (r : Request) :
    (∃ rest, (CreateProvider mgr r).2
          = Event.muLock :: Event.decodeBody :: (rest ++ [Event.muUnlock]) ∧
        ∀ ev ∈ Event.decodeBody :: rest, ev ≠ Event.muLock ∧ ev ≠ Event.muUnlock) ∧
      ∀ (g : Nat) (s0 : MuState) (pre mid post : List (Nat × MuOp)),
        stepsOf g ((g, MuOp.Lock) :: (mid ++ [(g, MuOp.Unlock)]))
          = (CreateProvider mgr r).2.map Event.muOp →
        (s0.run (pre ++ ((g, MuOp.Lock) :: (mid ++ ((g, MuOp.Unlock) :: post))))).isSome →
        ∀ x ∈ mid, x.1 ≠ g → x.2 = MuOp.other := by
  obtain ⟨⟨rest, hrest⟩, hbody⟩ := CreateProviderBody_muOp mgr r
  constructor
  · refine ⟨rest, by simp [CreateProvider, hrest], ?_⟩
    intro ev hev
    rw [← hrest] at hev
    rcases hbody ev hev with h | h <;>
      constructor <;> intro h2 <;> subst h2 <;> simp [Event.muOp] at h
  · intro g s0 pre mid post hsteps hrun
    have hmid : stepsOf g mid = (CreateProviderBody mgr r).2.map Event.muOp := by
      have h1 : stepsOf g ((g, MuOp.Lock) :: (mid ++ [(g, MuOp.Unlock)]))
          = MuOp.Lock :: (stepsOf g mid ++ [MuOp.Unlock]) := by
        simp [stepsOf, List.filter_cons]
      have h2 : (CreateProvider mgr r).2.map Event.muOp
          = MuOp.Lock :: ((CreateProviderBody mgr r).2.map Event.muOp ++ [MuOp.Unlock]) := by
        simp [CreateProvider, Event.muOp]
      rw [h1, h2] at hsteps
      exact (List.append_left_inj _).mp (List.cons.inj hsteps).2
    have hops : ∀ op ∈ stepsOf g mid, op = MuOp.registry ∨ op = MuOp.other := by
      intro op hop
      rw [hmid, List.mem_map] at hop
      obtain ⟨ev, hev, rfl⟩ := hop
      exact hbody ev hev
    rw [MuState.run_append] at hrun
    cases hpre : s0.run pre with
    | none => simp [hpre] at hrun
    | some s1 =>
      simp only [hpre, Option.bind, MuState.run] at hrun
      cases hl : s1.step g MuOp.Lock with
      | none => simp [hl] at hrun
      | some s2 =>
        simp only [hl] at hrun
        have hs2 : s2.writer = some g ∧ s2.readers = [] := by
          simp only [MuState.step] at hl
          split at hl
          · cases hl; exact ⟨rfl, rfl⟩
          · cases hl
        rw [MuState.run_append] at hrun
        cases hm : s2.run mid with
        | none => simp [hm] at hrun
        | some s3 => exact (MuState.run_held g mid s2 s3 hs2.1 hs2.2 hops hm).2

/-- C5 on a schedule where a second goroutine looks up before and mutates after the handler. -/
theorem CreateProvider_holds_lock_witness :
    stepsOf 1 ((1, MuOp.Lock) :: (schedMid ++ [(1, MuOp.Unlock)]))
        = (CreateProvider mgrOk reqAcmeSh).2.map Event.muOp ∧
      (muFree.run (schedPre ++ ((1, MuOp.Lock) ::
        (schedMid ++ ((1, MuOp.Unlock) :: schedPost))))).isSome ∧
      ∀ x ∈ schedMid, x.1 ≠ 1 → x.2 = MuOp.other :=
  ⟨by decide, by decide,
    (CreateProvider_holds_lock mgrOk reqAcmeSh).2 1 muFree schedPre schedMid schedPost
      (by decide) (by decide)⟩

end providers

namespace acme_accounts

/-- The detailed response makes one call, the lookup of the ACME service. -/
theorem detailedResponse_calls (acct : Account) (service : Service) :
    (acct.detailedResponse service).2 = [Event.AcmeService acct.AcmeServer.ID] := by
  unfold Account.detailedResponse
  split <;> rfl

/-- The calls of `getAccount` contain no CA call. -/
theorem getAccount_caCalls (service : Service) (id : Int) :
    (getAccount service id).2.filter Event.isCaCall = [] := by
  unfold getAccount
  repeat' split
  all_goals simp [Event.isCaCall]

/-- The calls of `getAccount` contain no storage write. -/
theorem getAccount_writes (service : Service) (id : Int) :
    (getAccount service id).2.filter Event.isStorageWrite = [] := by
  unfold getAccount
  repeat' split
  all_goals simp [Event.isStorageWrite]

/-- The function `getAccount` returns an account exactly when the id is in the
valid range and storage returns that account for it. -/
theorem getAccount_ok (service : Service) (id : Int) (account : Account) :
    (getAccount service id).1 = .ok account ↔
      service.lib.IsIdExistingValidRange id = true ∧
        service.storage.GetOneAccountById id = .ok account := by
  unfold getAccount
  repeat' split
  all_goals simp_all

/-- The ACME account key of an account is its crypto key with its kid. -/
theorem AcmeAccountKey_ok (account : Account) (service : Service) (k : acme.AccountKey) :
    account.AcmeAccountKey service = .ok k ↔
      service.lib.CryptoPrivateKey account.AccountKey = .ok k.Key ∧ k.Kid = account.Kid := by
  unfold Account.AcmeAccountKey
  obtain ⟨key, kid⟩ := k
  split <;> simp_all
  intro _
  exact eq_comm

/-- C6: every CA call in the calls of `Deactivate` is made for a stored account
whose status is `valid` and whose kid is not empty; when the account loads and
its key parses but the status is not `valid` or the kid is blank, `Deactivate`
returns `ErrValidationFailed` with no CA call and no storage write. -/
theorem Deactivate_requires_valid_and_kid (service : Service) (r : Request Unit) :
    (∀ ev ∈ (Deactivate service r).2, ev.isCaCall = true →
        (∃ key, ev = Event.DeactivateAccount key) ∧
        ∃ id account, service.lib.Atoi r.idParam = .ok id ∧
          service.storage.GetOneAccountById id = .ok account ∧
          account.Status = "valid" ∧ account.Kid ≠ "") ∧
      (∀ id account key, service.lib.Atoi r.idParam = .ok id →
        service.storage.GetOneAccountById id = .ok account →
        account.AcmeAccountKey service = .ok key →
        (account.Status ≠ "valid" ∨ account.Kid = "") →
        (Deactivate service r).1 = some output.Error.ErrValidationFailed ∧
          caCalls (Deactivate service r).2 = 0 ∧
          storageWrites (Deactivate service r).2 = 0) := by
  constructor
  · simp only [Deactivate]
    repeat' split
    all_goals simp_all [Event.isCaCall, detailedResponse_calls, AcmeAccountKey_ok]
  · intro id account key hid hacc hkey hbad
    have hk := (AcmeAccountKey_ok account service key).mp hkey
    simp only [Deactivate, hid, hacc, hkey]
    rcases hbad with h | h
    · by_cases hkid : key.Kid = ""
      · simp [hkid, caCalls, storageWrites, Event.isCaCall, Event.isStorageWrite]
      · simp [hkid, h, caCalls, storageWrites, Event.isCaCall, Event.isStorageWrite]
    · have hkid : key.Kid = "" := by rw [hk.2, h]
      simp [hkid, caCalls, storageWrites, Event.isCaCall, Event.isStorageWrite]

/-- C6 on a stored account whose status is `deactivated`. -/
theorem Deactivate_requires_valid_and_kid_witness :
    (serviceFor accountDeactivated).lib.Atoi reqSeven.idParam = .ok 7 ∧
      (serviceFor accountDeactivated).storage.GetOneAccountById 7 = .ok accountDeactivated ∧
      accountDeactivated.AcmeAccountKey (serviceFor accountDeactivated)
        = .ok { Key := { handle := "PEM-ONE" }, Kid := "https://ca.example/acct/7" } ∧
      (accountDeactivated.Status ≠ "valid" ∨ accountDeactivated.Kid = "") ∧
      (Deactivate (serviceFor accountDeactivated) reqSeven).1
        = some output.Error.ErrValidationFailed ∧
      caCalls (Deactivate (serviceFor accountDeactivated) reqSeven).2 = 0 ∧
      storageWrites (Deactivate (serviceFor accountDeactivated) reqSeven).2 = 0 :=
  ⟨rfl, rfl, rfl, by decide,
    (Deactivate_requires_valid_and_kid (serviceFor accountDeactivated) reqSeven).2 7
      accountDeactivated { Key := { handle := "PEM-ONE" }, Kid := "https://ca.example/acct/7" }
      rfl rfl rfl (by decide)⟩

/-- The paths of `Deactivate`: either no CA call and no storage write are made
and an error is returned, or every check and lookup before the CA call passed,
the one CA call is `DeactivateAccount`, and storage is written exactly when
that call returned a representation, with that representation. -/
theorem Deactivate_paths (service : Service) (r : Request Unit) :
    ((Deactivate service r).2.filter Event.isCaCall = [] ∧
        (Deactivate service r).2.filter Event.isStorageWrite = [] ∧
        (Deactivate service r).1 ≠ none) ∨
      ∃ id account key acmeService,
        service.lib.Atoi r.idParam = .ok id ∧
        service.storage.GetOneAccountById id = .ok account ∧
        account.AcmeAccountKey service = .ok key ∧
        key.Kid ≠ "" ∧ account.Status = "valid" ∧
        service.acmeServerService.AcmeService 0 account.AcmeServer.ID = .ok acmeService ∧
        (Deactivate service r).2.filter Event.isCaCall = [Event.DeactivateAccount key] ∧
        ((∃ e, acmeService.DeactivateAccount key = .error e ∧
            (Deactivate service r).2.filter Event.isStorageWrite = [] ∧
            (Deactivate service r).1 ≠ none) ∨
          ∃ resp, acmeService.DeactivateAccount key = .ok resp ∧
            (Deactivate service r).2.filter Event.isStorageWrite =
              [Event.PutAcmeAccountResponse
                { Account := resp, ID := id, UpdatedAt := service.lib.now }]) := by
  simp only [Deactivate]
  repeat' split
  all_goals
    simp_all [Event.isCaCall, Event.isStorageWrite, detailedResponse_calls, List.filter_cons]


/-- The paths of `NewAcmeAccount`: either no CA call and no storage write are
made and an error is returned, or every lookup before the CA call passed, the
one CA call is `NewAccount`, and storage is written exactly when that call
returned a representation, with that representation. -/
theorem NewAcmeAccount_paths (service : Service) (r : Request registerPayload) :
    ((NewAcmeAccount service r).2.filter Event.isCaCall = [] ∧
        (NewAcmeAccount service r).2.filter Event.isStorageWrite = [] ∧
        (NewAcmeAccount service r).1 ≠ none) ∨
      ∃ payload id account key acmeService,
        r.body = .ok payload ∧
        service.lib.Atoi r.idParam = .ok id ∧
        service.storage.GetOneAccountById id = .ok account ∧
        service.lib.PemStringToKey account.AccountKey.Pem account.AccountKey.Algorithm
          = .ok key ∧
        service.acmeServerService.AcmeService 0 account.AcmeServer.ID = .ok acmeService ∧
        (NewAcmeAccount service r).2.filter Event.isCaCall =
          [Event.NewAccount
            (account.newAccountPayload service payload.EabKid payload.EabHmacKey) key] ∧
        ((∃ e, acmeService.NewAccount
              (account.newAccountPayload service payload.EabKid payload.EabHmacKey) key
                = .error e ∧
            (NewAcmeAccount service r).2.filter Event.isStorageWrite = [] ∧
            (NewAcmeAccount service r).1 ≠ none) ∨
          ∃ resp, acmeService.NewAccount
              (account.newAccountPayload service payload.EabKid payload.EabHmacKey) key
                = .ok resp ∧
            (NewAcmeAccount service r).2.filter Event.isStorageWrite =
              [Event.PutAcmeAccountResponse
                { Account := resp, ID := id, UpdatedAt := service.lib.now }]) := by
  simp only [NewAcmeAccount]
  repeat' split
  all_goals
    simp_all [Event.isCaCall, Event.isStorageWrite, detailedResponse_calls, List.filter_cons]

/-- The paths of `ChangeEmail`: either no CA call and no storage write are made
and an error is returned, or every check and lookup before the CA call passed,
the one CA call is `UpdateAccount` with the contact made from the email of the
body, and storage is written exactly when that call returned a representation,
with that representation. -/
theorem ChangeEmail_paths (service : Service) (r : Request changeEmailPayload) :
    ((ChangeEmail service r).2.filter Event.isCaCall = [] ∧
        (ChangeEmail service r).2.filter Event.isStorageWrite = [] ∧
        (ChangeEmail service r).1 ≠ none) ∨
      ∃ id payload account email key acmeService,
        service.lib.Atoi r.idParam = .ok id ∧
        r.body = .ok payload ∧
        (getAccount service id).1 = .ok account ∧
        payload.Email = some email ∧
        (email ≠ "" → service.lib.EmailValid email = true) ∧
        account.AcmeAccountKey service = .ok key ∧
        service.acmeServerService.AcmeService 0 account.AcmeServer.ID = .ok acmeService ∧
        (ChangeEmail service r).2.filter Event.isCaCall =
          [Event.UpdateAccount { Contact := service.lib.emailToContact email } key] ∧
        ((∃ e, acmeService.UpdateAccount
              { Contact := service.lib.emailToContact email } key = .error e ∧
            (ChangeEmail service r).2.filter Event.isStorageWrite = [] ∧
            (ChangeEmail service r).1 ≠ none) ∨
          ∃ resp, acmeService.UpdateAccount
              { Contact := service.lib.emailToContact email } key = .ok resp ∧
            (ChangeEmail service r).2.filter Event.isStorageWrite =
              [Event.PutAcmeAccountResponse
                { Account := resp, ID := id, UpdatedAt := service.lib.now }]) := by
  simp only [ChangeEmail]
  repeat' split
  all_goals
    simp_all [Event.isCaCall, Event.isStorageWrite, detailedResponse_calls, List.filter_cons,
      getAccount_caCalls, getAccount_writes]

/-- The paths of `RolloverKey`: either no CA call and no storage write are made
and an error is returned, or every check and lookup before the CA call passed,
the one CA call is `RolloverAccountKey`, and storage is written exactly when
that call returned no error, with the account id of the route, the private key
id of the body and the current time. -/
theorem RolloverKey_paths (service : Service) (r : Request RolloverKeyPayload) :
    ((RolloverKey service r).2.filter Event.isCaCall = [] ∧
        (RolloverKey service r).2.filter Event.isStorageWrite = [] ∧
        (RolloverKey service r).1 ≠ none) ∨
      ∃ payload id account privateKeyID oldKey newKey newCryptoKey acmeService,
        r.body = .ok payload ∧
        service.lib.Atoi r.idParam = .ok id ∧
        (getAccount service id).1 = .ok account ∧
        payload.PrivateKeyID = some privateKeyID ∧
        service.keys.KeyAvailable privateKeyID = true ∧
        account.AcmeAccountKey service = .ok oldKey ∧
        service.storage.GetOneKeyById privateKeyID = .ok newKey ∧
        service.lib.CryptoPrivateKey newKey = .ok newCryptoKey ∧
        service.acmeServerService.AcmeService 0 account.AcmeServer.ID = .ok acmeService ∧
        (RolloverKey service r).2.filter Event.isCaCall =
          [Event.RolloverAccountKey newCryptoKey oldKey] ∧
        ((∃ e, acmeService.RolloverAccountKey newCryptoKey oldKey = some e ∧
            (RolloverKey service r).2.filter Event.isStorageWrite = [] ∧
            (RolloverKey service r).1 ≠ none) ∨
          (acmeService.RolloverAccountKey newCryptoKey oldKey = none ∧
            (RolloverKey service r).2.filter Event.isStorageWrite =
              [Event.PutNewAccountKey
                { ID := id, PrivateKeyID := some privateKeyID,
                  UpdatedAt := service.lib.now }])) := by
  simp only [RolloverKey]
  repeat' split
  all_goals
    simp_all [Event.isCaCall, Event.isStorageWrite, detailedResponse_calls, List.filter_cons,
      getAccount_caCalls, getAccount_writes]

/-- C7 as stated fails for key rollover: two rollover requests for the same
account, at the same time and against the same CA, whose one signed call
returns nothing but a nil error, both succeed and hand different values to
storage: the stored value carries the private key id of the request body, so
it is no function of what the CA returned, the account id and the time. -/
theorem RolloverKey_write_not_from_ca :
    (RolloverKey (serviceFor accountValid) (reqRollover (some 2))).1 = none ∧
      (RolloverKey (serviceFor accountValid) (reqRollover (some 3))).1 = none ∧
      (RolloverKey (serviceFor accountValid) (reqRollover (some 2))).2.filter Event.isCaCall
        = (RolloverKey (serviceFor accountValid) (reqRollover (some 3))).2.filter
            Event.isCaCall ∧
      ¬ ∃ f : Option GoError → Int → Int → RolloverKeyPayload,
          ∀ privateKeyID,
            (RolloverKey (serviceFor accountValid) (reqRollover privateKeyID)).1 = none →
            (RolloverKey (serviceFor accountValid) (reqRollover privateKeyID)).2.filter
                Event.isStorageWrite
              = [Event.PutNewAccountKey
                  (f (caOk.RolloverAccountKey { handle := "PEM-ONE" }
                        { Key := { handle := "PEM-ONE" }, Kid := accountValid.Kid })
                    7 (serviceFor accountValid).lib.now)] := by
  refine ⟨by decide, by decide, by decide, ?_⟩
  rintro ⟨f, hf⟩
  have h2 := hf (some 2) (by decide)
  have h3 := hf (some 3) (by decide)
  rw [← h3] at h2
  revert h2
  decide

/-- C7 amended: when registration, email change or deactivation returns nil,
the one value handed to storage is the account representation that the one CA
call of the handler returned, with the account id of the route and the current
time.  When key rollover returns nil, its CA call returned no error and no
representation, and the one value handed to storage is the payload of the
request: the account id of the route, the private key id of the body and the
current time. -/
theorem storage_write_values (service : Service) :
    (∀ (r : Request registerPayload), (NewAcmeAccount service r).1 = none →
        ∃ id account acmeService payload key resp,
          service.lib.Atoi r.idParam = .ok id ∧
          service.storage.GetOneAccountById id = .ok account ∧
          service.acmeServerService.AcmeService 0 account.AcmeServer.ID = .ok acmeService ∧
          (NewAcmeAccount service r).2.filter Event.isCaCall
            = [Event.NewAccount payload key] ∧
          acmeService.NewAccount payload key = .ok resp ∧
          (NewAcmeAccount service r).2.filter Event.isStorageWrite =
            [Event.PutAcmeAccountResponse
              { Account := resp, ID := id, UpdatedAt := service.lib.now }]) ∧
      (∀ (r : Request changeEmailPayload), (ChangeEmail service r).1 = none →
        ∃ id account acmeService payload key resp,
          service.lib.Atoi r.idParam = .ok id ∧
          service.storage.GetOneAccountById id = .ok account ∧
          service.acmeServerService.AcmeService 0 account.AcmeServer.ID = .ok acmeService ∧
          (ChangeEmail service r).2.filter Event.isCaCall
            = [Event.UpdateAccount payload key] ∧
          acmeService.UpdateAccount payload key = .ok resp ∧
          (ChangeEmail service r).2.filter Event.isStorageWrite =
            [Event.PutAcmeAccountResponse
              { Account := resp, ID := id, UpdatedAt := service.lib.now }]) ∧
      (∀ (r : Request Unit), (Deactivate service r).1 = none →
        ∃ id account acmeService key resp,
          service.lib.Atoi r.idParam = .ok id ∧
          service.storage.GetOneAccountById id = .ok account ∧
          service.acmeServerService.AcmeService 0 account.AcmeServer.ID = .ok acmeService ∧
          (Deactivate service r).2.filter Event.isCaCall
            = [Event.DeactivateAccount key] ∧
          acmeService.DeactivateAccount key = .ok resp ∧
          (Deactivate service r).2.filter Event.isStorageWrite =
            [Event.PutAcmeAccountResponse
              { Account := resp, ID := id, UpdatedAt := service.lib.now }]) ∧
      (∀ (r : Request RolloverKeyPayload), (RolloverKey service r).1 = none →
        ∃ id account acmeService payload privateKeyID newKey oldKey,
          service.lib.Atoi r.idParam = .ok id ∧
          service.storage.GetOneAccountById id = .ok account ∧
          service.acmeServerService.AcmeService 0 account.AcmeServer.ID = .ok acmeService ∧
          r.body = .ok payload ∧
          payload.PrivateKeyID = some privateKeyID ∧
          (RolloverKey service r).2.filter Event.isCaCall
            = [Event.RolloverAccountKey newKey oldKey] ∧
          acmeService.RolloverAccountKey newKey oldKey = none ∧
          (RolloverKey service r).2.filter Event.isStorageWrite =
            [Event.PutNewAccountKey
              { ID := id, PrivateKeyID := some privateKeyID,
                UpdatedAt := service.lib.now }]) := by
  refine ⟨fun r hres => ?_, fun r hres => ?_, fun r hres => ?_, fun r hres => ?_⟩
  · rcases NewAcmeAccount_paths service r with h | h
    · exact absurd hres h.2.2
    · obtain ⟨payload, id, account, key, acmeService, _, hid, hacc, _, has, hca, hrest⟩ := h
      rcases hrest with ⟨e, _, _, hne⟩ | ⟨resp, hresp, hw⟩
      · exact absurd hres hne
      · exact ⟨id, account, acmeService, _, key, resp, hid, hacc, has, hca, hresp, hw⟩
  · rcases ChangeEmail_paths service r with h | h
    · exact absurd hres h.2.2
    · obtain ⟨id, payload, account, email, key, acmeService, hid, _, hacc, _, _, _, has,
        hca, hrest⟩ := h
      rcases hrest with ⟨e, _, _, hne⟩ | ⟨resp, hresp, hw⟩
      · exact absurd hres hne
      · exact ⟨id, account, acmeService, _, key, resp, hid,
          ((getAccount_ok service id account).mp hacc).2, has, hca, hresp, hw⟩
  · rcases Deactivate_paths service r with h | h
    · exact absurd hres h.2.2
    · obtain ⟨id, account, key, acmeService, hid, hacc, _, _, _, has, hca, hrest⟩ := h
      rcases hrest with ⟨e, _, _, hne⟩ | ⟨resp, hresp, hw⟩
      · exact absurd hres hne
      · exact ⟨id, account, acmeService, key, resp, hid, hacc, has, hca, hresp, hw⟩
  · rcases RolloverKey_paths service r with h | h
    · exact absurd hres h.2.2
    · obtain ⟨payload, id, account, privateKeyID, oldKey, newKey, newCryptoKey, acmeService,
        hbody, hid, hacc, hpk, _, _, _, _, has, hca, hrest⟩ := h
      rcases hrest with ⟨e, _, _, hne⟩ | ⟨hnone, hw⟩
      · exact absurd hres hne
      · exact ⟨id, account, acmeService, payload, privateKeyID, newCryptoKey, oldKey, hid,
          ((getAccount_ok service id account).mp hacc).2, has, hbody, hpk, hca, hnone, hw⟩

/-- C7 amended, on a rollover to key 2 that succeeds. -/
theorem storage_write_values_witness :
    (RolloverKey (serviceFor accountValid) (reqRollover (some 2))).1 = none ∧
      ∃ id account acmeService payload privateKeyID newKey oldKey,
        (serviceFor accountValid).lib.Atoi (reqRollover (some 2)).idParam = .ok id ∧
        (serviceFor accountValid).storage.GetOneAccountById id = .ok account ∧
        (serviceFor accountValid).acmeServerService.AcmeService 0 account.AcmeServer.ID
          = .ok acmeService ∧
        (reqRollover (some 2)).body = .ok payload ∧
        payload.PrivateKeyID = some privateKeyID ∧
        (RolloverKey (serviceFor accountValid) (reqRollover (some 2))).2.filter Event.isCaCall
          = [Event.RolloverAccountKey newKey oldKey] ∧
        acmeService.RolloverAccountKey newKey oldKey = none ∧
        (RolloverKey (serviceFor accountValid) (reqRollover (some 2))).2.filter
            Event.isStorageWrite =
          [Event.PutNewAccountKey
            { ID := id, PrivateKeyID := some privateKeyID,
              UpdatedAt := (serviceFor accountValid).lib.now }] :=
  ⟨by decide,
    (storage_write_values (serviceFor accountValid)).2.2.2 (reqRollover (some 2)) (by decide)⟩

/-- C8: each of the four handlers makes at most one signed CA call, and a call
it makes is the one of the handler (`NewAccount`, `UpdateAccount`,
`DeactivateAccount`, `RolloverAccountKey`); when its calls contain a storage
write they contain exactly one CA call; when a check or lookup before the CA
call fails they contain none. -/
theorem one_ca_call (service : Service) :
    (∀ (r : Request registerPayload),
        caCalls (NewAcmeAccount service r).2 ≤ 1 ∧
        (∀ ev ∈ (NewAcmeAccount service r).2, ev.isCaCall = true →
          ∃ payload key, ev = Event.NewAccount payload key) ∧
        (1 ≤ storageWrites (NewAcmeAccount service r).2 →
          caCalls (NewAcmeAccount service r).2 = 1) ∧
        (¬ NewAcmeAccount.checksPass service r →
          caCalls (NewAcmeAccount service r).2 = 0)) ∧
      (∀ (r : Request changeEmailPayload),
        caCalls (ChangeEmail service r).2 ≤ 1 ∧
        (∀ ev ∈ (ChangeEmail service r).2, ev.isCaCall = true →
          ∃ payload key, ev = Event.UpdateAccount payload key) ∧
        (1 ≤ storageWrites (ChangeEmail service r).2 →
          caCalls (ChangeEmail service r).2 = 1) ∧
        (¬ ChangeEmail.checksPass service r →
          caCalls (ChangeEmail service r).2 = 0)) ∧
      (∀ (r : Request Unit),
        caCalls (Deactivate service r).2 ≤ 1 ∧
        (∀ ev ∈ (Deactivate service r).2, ev.isCaCall = true →
          ∃ key, ev = Event.DeactivateAccount key) ∧
        (1 ≤ storageWrites (Deactivate service r).2 →
          caCalls (Deactivate service r).2 = 1) ∧
        (¬ Deactivate.checksPass service r →
          caCalls (Deactivate service r).2 = 0)) ∧
      (∀ (r : Request RolloverKeyPayload),
        caCalls (RolloverKey service r).2 ≤ 1 ∧
        (∀ ev ∈ (RolloverKey service r).2, ev.isCaCall = true →
          ∃ newKey oldKey, ev = Event.RolloverAccountKey newKey oldKey) ∧
        (1 ≤ storageWrites (RolloverKey service r).2 →
          caCalls (RolloverKey service r).2 = 1) ∧
        (¬ RolloverKey.checksPass service r →
          caCalls (RolloverKey service r).2 = 0)) := by
  have key : ∀ (t : List Event) (P : Event → Prop),
      (t.filter Event.isCaCall = [] ∨ ∃ e, P e ∧ t.filter Event.isCaCall = [e]) →
      caCalls t ≤ 1 ∧ ∀ ev ∈ t, ev.isCaCall = true → P ev := by
    intro t P h
    rcases h with h | ⟨e, hP, h⟩
    · refine ⟨by simp [caCalls, h], ?_⟩
      intro ev hev hca
      have : ev ∈ t.filter Event.isCaCall := List.mem_filter.mpr ⟨hev, hca⟩
      rw [h] at this
      simp at this
    · refine ⟨by simp [caCalls, h], ?_⟩
      intro ev hev hca
      have : ev ∈ t.filter Event.isCaCall := List.mem_filter.mpr ⟨hev, hca⟩
      rw [h] at this
      simp at this
      rw [this]; exact hP
  refine ⟨fun r => ?_, fun r => ?_, fun r => ?_, fun r => ?_⟩
  · rcases NewAcmeAccount_paths service r with h | h
    · obtain ⟨hca, hw, _⟩ := h
      obtain ⟨k1, k2⟩ := key _ (fun ev => ∃ payload key, ev = Event.NewAccount payload key)
        (Or.inl hca)
      exact ⟨k1, k2, by simp [storageWrites, hw], fun _ => by simp [caCalls, hca]⟩
    · obtain ⟨payload, id, account, k, acmeService, hbody, hid, hacc, hk, has, hca, _⟩ := h
      obtain ⟨k1, k2⟩ := key _ (fun ev => ∃ payload key, ev = Event.NewAccount payload key)
        (Or.inr ⟨_, ⟨_, _, rfl⟩, hca⟩)
      exact ⟨k1, k2, fun _ => by simp [caCalls, hca],
        fun hn => absurd ⟨payload, id, account, k, acmeService, hbody, hid, hacc, hk, has⟩ hn⟩
  · rcases ChangeEmail_paths service r with h | h
    · obtain ⟨hca, hw, _⟩ := h
      obtain ⟨k1, k2⟩ := key _ (fun ev => ∃ payload key, ev = Event.UpdateAccount payload key)
        (Or.inl hca)
      exact ⟨k1, k2, by simp [storageWrites, hw], fun _ => by simp [caCalls, hca]⟩
    · obtain ⟨id, payload, account, email, k, acmeService, hid, hbody, hacc, hem, hval, hk,
        has, hca, _⟩ := h
      obtain ⟨k1, k2⟩ := key _ (fun ev => ∃ payload key, ev = Event.UpdateAccount payload key)
        (Or.inr ⟨_, ⟨_, _, rfl⟩, hca⟩)
      obtain ⟨hrange, hget⟩ := (getAccount_ok service id account).mp hacc
      exact ⟨k1, k2, fun _ => by simp [caCalls, hca],
        fun hn => absurd
          ⟨id, payload, account, email, k, acmeService, hid, hbody, hrange, hget, hem, hval,
            hk, has⟩ hn⟩
  · rcases Deactivate_paths service r with h | h
    · obtain ⟨hca, hw, _⟩ := h
      obtain ⟨k1, k2⟩ := key _ (fun ev => ∃ key, ev = Event.DeactivateAccount key)
        (Or.inl hca)
      exact ⟨k1, k2, by simp [storageWrites, hw], fun _ => by simp [caCalls, hca]⟩
    · obtain ⟨id, account, k, acmeService, hid, hacc, hk, hkid, hst, has, hca, _⟩ := h
      obtain ⟨k1, k2⟩ := key _ (fun ev => ∃ key, ev = Event.DeactivateAccount key)
        (Or.inr ⟨_, ⟨_, rfl⟩, hca⟩)
      exact ⟨k1, k2, fun _ => by simp [caCalls, hca],
        fun hn => absurd ⟨id, account, k, acmeService, hid, hacc, hk, hkid, hst, has⟩ hn⟩
  · rcases RolloverKey_paths service r with h | h
    · obtain ⟨hca, hw, _⟩ := h
      obtain ⟨k1, k2⟩ := key _
        (fun ev => ∃ newKey oldKey, ev = Event.RolloverAccountKey newKey oldKey) (Or.inl hca)
      exact ⟨k1, k2, by simp [storageWrites, hw], fun _ => by simp [caCalls, hca]⟩
    · obtain ⟨payload, id, account, pk, oldKey, newKey, newCryptoKey, acmeService, hbody, hid,
        hacc, hpk, hav, hold, hnew, hcrypto, has, hca, _⟩ := h
      obtain ⟨k1, k2⟩ := key _
        (fun ev => ∃ newKey oldKey, ev = Event.RolloverAccountKey newKey oldKey)
        (Or.inr ⟨_, ⟨_, _, rfl⟩, hca⟩)
      obtain ⟨hrange, hget⟩ := (getAccount_ok service id account).mp hacc
      exact ⟨k1, k2, fun _ => by simp [caCalls, hca],
        fun hn => absurd
          ⟨payload, id, account, pk, oldKey, newKey, newCryptoKey, acmeService, hbody, hid,
            hrange, hget, hpk, hav, hold, hnew, hcrypto, has⟩ hn⟩

/-- C8 on a registration that succeeds and on a deactivation of a deactivated account. -/
theorem one_ca_call_witness :
    (1 ≤ storageWrites (NewAcmeAccount (serviceFor accountValid) reqRegister).2 ∧
        caCalls (NewAcmeAccount (serviceFor accountValid) reqRegister).2 = 1) ∧
      (¬ Deactivate.checksPass (serviceFor accountDeactivated) reqSeven ∧
        caCalls (Deactivate (serviceFor accountDeactivated) reqSeven).2 = 0) :=
  have hfail : ¬ Deactivate.checksPass (serviceFor accountDeactivated) reqSeven := by
    rintro ⟨id, account, key, acmeService, hid, hacc, _, _, hst, _⟩
    have h7 : id = 7 := by
      simp [serviceFor, libOk, reqSeven] at hid
      exact hid.symm
    subst h7
    have ha : account = accountDeactivated := by
      simp [serviceFor, accountDeactivated, accountValid] at hacc
      rw [← hacc]; rfl
    subst ha
    revert hst
    decide
  ⟨⟨by decide,
      ((one_ca_call (serviceFor accountValid)).1 reqRegister).2.2.1 (by decide)⟩,
    hfail,
    ((one_ca_call (serviceFor accountDeactivated)).2.2.1 reqSeven).2.2.2 hfail⟩

/-- C9: for a rollover request on an existing account whose `private_key_id`
is missing, or names a key for which `KeyAvailable` is false, `RolloverKey`
returns a validation-failed error, makes no CA call and no storage write. -/
theorem RolloverKey_rejects_unavailable_key (service : Service)
    (r : Request RolloverKeyPayload) (payload : RolloverKeyPayload) (id : Int)
    (account : Account)
    (hbody : r.body = .ok payload) (hid : service.lib.Atoi r.idParam = .ok id)
    (hrange : service.lib.IsIdExistingValidRange id = true)
    (hacc : service.storage.GetOneAccountById id = .ok account)
    (hkey : payload.PrivateKeyID = none ∨
      ∃ k, payload.PrivateKeyID = some k ∧ service.keys.KeyAvailable k = false) :
    (RolloverKey service r).1 = some (output.JsonError.JsonErrValidationFailed
        (GoError.new "invalid private key specified for account key rollover")) ∧
      caCalls (RolloverKey service r).2 = 0 ∧
      storageWrites (RolloverKey service r).2 = 0 ∧
      ∀ ev ∈ (RolloverKey service r).2, ev.isCaCall = false ∧ ev.isStorageWrite = false := by
  have hga : (getAccount service id).1 = .ok account :=
    (getAccount_ok service id account).mpr ⟨hrange, hacc⟩
  have hcount : (RolloverKey service r).1 = some (output.JsonError.JsonErrValidationFailed
        (GoError.new "invalid private key specified for account key rollover")) ∧
      (RolloverKey service r).2.filter Event.isCaCall = [] ∧
      (RolloverKey service r).2.filter Event.isStorageWrite = [] := by
    rcases hkey with h | ⟨k, h, hk⟩
    · simp [RolloverKey, hbody, hid, hga, h, Event.isCaCall, Event.isStorageWrite,
        getAccount_caCalls, getAccount_writes]
    · simp [RolloverKey, hbody, hid, hga, h, hk, Event.isCaCall, Event.isStorageWrite,
        getAccount_caCalls, getAccount_writes]
  obtain ⟨h1, h2, h3⟩ := hcount
  refine ⟨h1, by simp [caCalls, h2], by simp [storageWrites, h3], ?_⟩
  intro ev hev
  constructor
  · by_contra hc
    have : ev ∈ (RolloverKey service r).2.filter Event.isCaCall :=
      List.mem_filter.mpr ⟨hev, by simpa using hc⟩
    rw [h2] at this
    simp at this
  · by_contra hc
    have : ev ∈ (RolloverKey service r).2.filter Event.isStorageWrite :=
      List.mem_filter.mpr ⟨hev, by simpa using hc⟩
    rw [h3] at this
    simp at this

/-- C9 on a rollover to key 5, which is not available. -/
theorem RolloverKey_rejects_unavailable_key_witness :
    (reqRollover (some 5)).body = .ok { ID := 0, PrivateKeyID := some 5, UpdatedAt := 0 } ∧
      (serviceFor accountValid).keys.KeyAvailable 5 = false ∧
      (RolloverKey (serviceFor accountValid) (reqRollover (some 5))).1
        = some (output.JsonError.JsonErrValidationFailed
            (GoError.new "invalid private key specified for account key rollover")) ∧
      caCalls (RolloverKey (serviceFor accountValid) (reqRollover (some 5))).2 = 0 ∧
      storageWrites (RolloverKey (serviceFor accountValid) (reqRollover (some 5))).2 = 0 ∧
      ∀ ev ∈ (RolloverKey (serviceFor accountValid) (reqRollover (some 5))).2,
        ev.isCaCall = false ∧ ev.isStorageWrite = false :=
  ⟨rfl, by decide,
    RolloverKey_rejects_unavailable_key (serviceFor accountValid) (reqRollover (some 5))
      { ID := 0, PrivateKeyID := some 5, UpdatedAt := 0 } 7 accountValid rfl rfl (by decide) rfl
      (Or.inr ⟨5, rfl, by decide⟩)⟩

/-- C10: for an email change on an existing account, `ChangeEmail` returns the
validation-failed error that carries `ErrEmailBad` exactly when the email field
is missing or is non-empty and fails `EmailValid`; on that rejection it makes
no CA call and no storage write; an empty email is not rejected, and once the
account key parses and the ACME service is found it is the email whose contact
is sent to the CA in the `UpdateAccount` call. -/
theorem ChangeEmail_email_check (service : Service) (r : Request changeEmailPayload)
    (payload : changeEmailPayload) (id : Int) (account : Account)
    (hid : service.lib.Atoi r.idParam = .ok id) (hbody : r.body = .ok payload)
    (hrange : service.lib.IsIdExistingValidRange id = true)
    (hacc : service.storage.GetOneAccountById id = .ok account) :
    ((ChangeEmail service r).1
          = some (output.JsonError.JsonErrValidationFailed GoError.ErrEmailBad) ↔
        (payload.Email = none ∨
          ∃ email, payload.Email = some email ∧ email ≠ "" ∧
            service.lib.EmailValid email = false)) ∧
      ((ChangeEmail service r).1
          = some (output.JsonError.JsonErrValidationFailed GoError.ErrEmailBad) →
        caCalls (ChangeEmail service r).2 = 0 ∧
          storageWrites (ChangeEmail service r).2 = 0) ∧
      (payload.Email = some "" →
        (ChangeEmail service r).1
            ≠ some (output.JsonError.JsonErrValidationFailed GoError.ErrEmailBad) ∧
          ∀ key acmeService, account.AcmeAccountKey service = .ok key →
            service.acmeServerService.AcmeService 0 account.AcmeServer.ID = .ok acmeService →
            (ChangeEmail service r).2.filter Event.isCaCall =
              [Event.UpdateAccount { Contact := service.lib.emailToContact "" } key]) := by
  have hga : (getAccount service id).1 = .ok account :=
    (getAccount_ok service id account).mpr ⟨hrange, hacc⟩
  have hiff : (ChangeEmail service r).1
          = some (output.JsonError.JsonErrValidationFailed GoError.ErrEmailBad) ↔
        (payload.Email = none ∨
          ∃ email, payload.Email = some email ∧ email ≠ "" ∧
            service.lib.EmailValid email = false) := by
    simp only [ChangeEmail, hid, hbody, hga]
    repeat' split
    all_goals simp_all
  refine ⟨hiff, ?_, ?_⟩
  · intro hrej
    rcases hiff.mp hrej with h | ⟨email, h, hne, hinv⟩
    · simp [ChangeEmail, hid, hbody, hga, h, caCalls, storageWrites, Event.isCaCall,
        Event.isStorageWrite, getAccount_caCalls, getAccount_writes]
    · simp [ChangeEmail, hid, hbody, hga, h, hne, hinv, caCalls, storageWrites,
        Event.isCaCall, Event.isStorageWrite, getAccount_caCalls, getAccount_writes]
  · intro hempty
    constructor
    · intro hrej
      rcases hiff.mp hrej with h | ⟨email, h, hne, _⟩
      · rw [hempty] at h; cases h
      · rw [hempty] at h; cases h; exact hne rfl
    · intro key acmeService hkey has
      simp only [ChangeEmail, hid, hbody, hga, hempty, hkey, has]
      repeat' split
      all_goals
        simp_all [Event.isCaCall, detailedResponse_calls, List.filter_cons,
          getAccount_caCalls]

/-- C10 on an email change to the empty string. -/
theorem ChangeEmail_email_check_witness :
    (serviceFor accountValid).lib.Atoi (reqEmail (some "")).idParam = .ok 7 ∧
      (reqEmail (some "")).body = .ok { Email := some "" } ∧
      (ChangeEmail (serviceFor accountValid) (reqEmail (some ""))).1
          ≠ some (output.JsonError.JsonErrValidationFailed GoError.ErrEmailBad) ∧
      (ChangeEmail (serviceFor accountValid) (reqEmail (some ""))).2.filter Event.isCaCall =
        [Event.UpdateAccount { Contact := (serviceFor accountValid).lib.emailToContact "" }
          { Key := { handle := "PEM-ONE" }, Kid := "https://ca.example/acct/7" }] :=
  have h := (ChangeEmail_email_check (serviceFor accountValid) (reqEmail (some ""))
    { Email := some "" } 7 accountValid rfl rfl (by decide) rfl).2.2 rfl
  ⟨rfl, rfl, h.1,
    h.2 { Key := { handle := "PEM-ONE" }, Kid := "https://ca.example/acct/7" } caOk rfl rfl⟩

/-- The loop invariant of `GetUsableAccounts`: after the rounds for the indices
below `n`, the slice has kept its length, its first `newIndex` places hold the
usable accounts among the first `n` of the input, in order, and its places
from `n` on are those of the input. -/
theorem GetUsableAccounts_loop (orig : List Account) (n : Nat) (hn : n ≤ orig.length) :
    let st := (List.range n).foldl GetUsableAccounts.step (orig, 0)
    st.1.length = orig.length ∧ st.2 ≤ n ∧
      st.1.take st.2 = (orig.take n).filter usable ∧ st.1.drop n = orig.drop n := by
  induction n with
  | zero => simp
  | succ n ih =>
    have hlt : n < orig.length := hn
    obtain ⟨hlen, hle, htake, hdrop⟩ := ih (Nat.le_of_lt hlt)
    simp only [List.range_succ, List.foldl_append, List.foldl_cons, List.foldl_nil]
    generalize (List.range n).foldl GetUsableAccounts.step (orig, 0) = st at hlen hle htake hdrop
    obtain ⟨l, k⟩ := st
    simp only at hlen hle htake hdrop
    have hget : l[n]? = some orig[n] := by
      have h1 : (l.drop n)[0]? = (orig.drop n)[0]? := by rw [hdrop]
      simpa [List.getElem?_drop, List.getElem?_eq_getElem hlt] using h1
    have hdrop1 : l.drop (n + 1) = orig.drop (n + 1) := by
      rw [← List.drop_drop, ← List.drop_drop, hdrop]
    have htk : orig.take (n + 1) = orig.take n ++ [orig[n]] := by
      rw [List.take_succ, List.getElem?_eq_getElem hlt]; rfl
    simp only [GetUsableAccounts.step, hget]
    by_cases hu : orig[n].Status = "valid" ∧ orig[n].AcceptedTos = true
    · have hus : usable orig[n] = true := by simp [usable, hu.1, hu.2]
      have hk : k < l.length := by omega
      simp only [hu, and_self, if_true]
      refine ⟨by simp [hlen], by omega, ?_, ?_⟩
      · have hset : List.take k (l.set k orig[n]) = List.take k l := by
          apply List.ext_getElem?
          intro i
          rw [List.getElem?_take, List.getElem?_take]
          split
          · rw [List.getElem?_set_ne (by omega)]
          · rfl
        rw [List.take_succ, List.getElem?_set_self hk, hset, htake, htk, List.filter_append]
        simp [hus]
      · rw [List.drop_set_of_lt _ _ (by omega), hdrop1]
    · have hus : usable orig[n] = false := by
        simp only [usable, Bool.and_eq_false_iff, beq_eq_false_iff_ne, ne_eq]
        by_cases h1 : orig[n].Status = "valid"
        · right
          cases h2 : orig[n].AcceptedTos with
          | false => rfl
          | true => exact absurd ⟨h1, h2⟩ hu
        · left; exact h1
      simp only [hu, if_false]
      refine ⟨hlen, by omega, ?_, hdrop1⟩
      rw [htk, List.filter_append, ← htake]
      simp [hus]

/-- The compaction of `GetUsableAccounts` is the filter of the list. -/
theorem GetUsableAccounts_ok (service : Service) (accounts : List Account) (total : Int)
    (h : service.storage.GetAllAccounts = .ok (accounts, total)) :
    GetUsableAccounts service = .ok (accounts.filter usable) := by
  obtain ⟨_, _, htake, _⟩ := GetUsableAccounts_loop accounts accounts.length (Nat.le_refl _)
  simp only [List.take_length] at htake
  simp only [GetUsableAccounts, h]
  rw [htake]

/-- A storage error is what `GetUsableAccounts` returns. -/
theorem GetUsableAccounts_error (service : Service) (err : GoError)
    (h : service.storage.GetAllAccounts = .error err) :
    GetUsableAccounts service = .error err := by
  simp [GetUsableAccounts, h]

/-- C11: when storage returns a list of accounts, `GetUsableAccounts` returns
the accounts of that list with status `valid` and accepted terms, in the order
of the list (the filter of the list, a sublist of it); when storage fails it
returns no list and the error of storage. -/
theorem GetUsableAccounts_filter (service : Service) :
    (∀ accounts total, service.storage.GetAllAccounts = .ok (accounts, total) →
        GetUsableAccounts service =
          .ok (accounts.filter (fun a => decide (a.Status = "valid" ∧ a.AcceptedTos = true))) ∧
        (accounts.filter
          (fun a => decide (a.Status = "valid" ∧ a.AcceptedTos = true))).Sublist accounts) ∧
      (∀ err, service.storage.GetAllAccounts = .error err →
        GetUsableAccounts service = .error err) := by
  constructor
  · intro accounts total h
    refine ⟨?_, List.filter_sublist _⟩
    have hp : (fun a : Account => decide (a.Status = "valid" ∧ a.AcceptedTos = true)) = usable := by
      funext a
      simp only [usable, Bool.decide_and, Bool.decide_eq_true]
      by_cases hv : a.Status = "valid" <;> simp [hv]
    rw [hp]
    exact GetUsableAccounts_ok service accounts total h
  · intro err h
    exact GetUsableAccounts_error service err h

/-- C11 on a list of three accounts of which the second has not accepted the
terms, and on a storage that fails. -/
theorem GetUsableAccounts_filter_witness :
    (serviceListing [accountValid, accountNoTos, accountThird]).storage.GetAllAccounts
        = .ok ([accountValid, accountNoTos, accountThird], 3) ∧
      GetUsableAccounts (serviceListing [accountValid, accountNoTos, accountThird])
        = .ok [accountValid, accountThird] ∧
      GetUsableAccounts serviceStorageDown = .error (GoError.foreign "database is locked") :=
  ⟨rfl,
    ((GetUsableAccounts_filter (serviceListing [accountValid, accountNoTos, accountThird])).1
      [accountValid, accountNoTos, accountThird] 3 rfl).1,
    (GetUsableAccounts_filter serviceStorageDown).2 (GoError.foreign "database is locked") rfl⟩

/-- The loop of `AccountUsable` returns the first account with the id. -/
theorem AccountUsable_loop (accountId : Int) (accounts : List Account) :
    AccountUsable.loop accountId accounts =
      match accounts.find? (fun x => x.ID == accountId) with
      | some a => (true, some a)
      | none => (false, none) := by
  induction accounts with
  | nil => rfl
  | cons a rest ih =>
    by_cases h : a.ID = accountId
    · simp [AccountUsable.loop, h]
    · simp [AccountUsable.loop, h, ih]

/-- C12: `AccountUsable` returns true and an account exactly when the list of
`GetUsableAccounts` has an account with the id, and then the account is the
first of the list with the id, so it has the id, status `valid` and accepted
terms; in every other case, a storage failure included, it returns false and
nil. -/
theorem AccountUsable_first_usable (service : Service) (accountId : Int) :
    (∀ a, AccountUsable service accountId = (true, some a) ↔
        ∃ accounts, GetUsableAccounts service = .ok accounts ∧
          accounts.find? (fun x => x.ID == accountId) = some a) ∧
      ((AccountUsable service accountId).1 = true ↔
        ∃ accounts, GetUsableAccounts service = .ok accounts ∧
          ∃ x ∈ accounts, x.ID = accountId) ∧
      (∀ a, AccountUsable service accountId = (true, some a) →
        a.ID = accountId ∧ a.Status = "valid" ∧ a.AcceptedTos = true) ∧
      (AccountUsable service accountId = (false, none) ∨
        ∃ a, AccountUsable service accountId = (true, some a)) ∧
      (∀ err, service.storage.GetAllAccounts = .error err →
        AccountUsable service accountId = (false, none)) := by
  have hfirst : ∀ a, AccountUsable service accountId = (true, some a) ↔
        ∃ accounts, GetUsableAccounts service = .ok accounts ∧
          accounts.find? (fun x => x.ID == accountId) = some a := by
    intro a
    unfold AccountUsable
    cases hg : GetUsableAccounts service with
    | error e => simp
    | ok accounts =>
      simp only [AccountUsable_loop, Except.ok.injEq, exists_eq_left']
      cases hf : accounts.find? (fun x => x.ID == accountId) with
      | none => simp
      | some b => simp
  refine ⟨hfirst, ?_, ?_, ?_, ?_⟩
  · unfold AccountUsable
    cases hg : GetUsableAccounts service with
    | error e => simp
    | ok accounts =>
      simp only [AccountUsable_loop, Except.ok.injEq, exists_eq_left']
      cases hf : accounts.find? (fun x => x.ID == accountId) with
      | none =>
        simp only [Bool.false_eq_true, false_iff, not_exists, not_and]
        intro x hx hid
        have := List.find?_eq_none.mp hf x hx
        simp [hid] at this
      | some b =>
        simp only [true_iff]
        have hb := List.find?_some hf
        exact ⟨b, List.mem_of_find?_eq_some hf, by simpa using hb⟩
  · intro a ha
    obtain ⟨accounts, hg, hf⟩ := (hfirst a).mp ha
    have hid : a.ID = accountId := by simpa using List.find?_some hf
    have hmem : a ∈ accounts := List.mem_of_find?_eq_some hf
    refine ⟨hid, ?_⟩
    cases hs : service.storage.GetAllAccounts with
    | error e =>
      rw [GetUsableAccounts_error service e hs] at hg
      cases hg
    | ok p =>
      obtain ⟨all, total⟩ := p
      rw [GetUsableAccounts_ok service all total hs] at hg
      cases hg
      simpa [usable] using (List.mem_filter.mp hmem).2
  · unfold AccountUsable
    cases hg : GetUsableAccounts service with
    | error e => simp
    | ok accounts =>
      simp only [AccountUsable_loop]
      cases hf : accounts.find? (fun x => x.ID == accountId) with
      | none => simp
      | some b => simp
  · intro err h
    simp [AccountUsable, GetUsableAccounts_error service err h]

/-- C12 on a list in which the account with id 9 is usable and the account
with id 8 is not. -/
theorem AccountUsable_first_usable_witness :
    AccountUsable (serviceListing [accountValid, accountNoTos, accountThird]) 9
        = (true, some accountThird) ∧
      (accountThird.ID = 9 ∧ accountThird.Status = "valid" ∧
        accountThird.AcceptedTos = true) ∧
      AccountUsable (serviceListing [accountValid, accountNoTos, accountThird]) 8
        = (false, none) ∧
      AccountUsable serviceStorageDown 7 = (false, none) :=
  have h9 : AccountUsable (serviceListing [accountValid, accountNoTos, accountThird]) 9
      = (true, some accountThird) := by decide
  ⟨h9,
    (AccountUsable_first_usable
      (serviceListing [accountValid, accountNoTos, accountThird]) 9).2.2.1 accountThird h9,
    by decide,
    (AccountUsable_first_usable serviceStorageDown 7).2.2.2.2
      (GoError.foreign "database is locked") rfl⟩

/-- C13: `nameValid` is true exactly when `NameValid` holds for the name and
either storage answers the lookup by name with an error that is `ErrNoRecord`,
or an id is given and the account storage returns for the name has that id;
on a storage error that is not `ErrNoRecord` it is false. -/
theorem nameValid_iff (service : Service) (accountName : String) (accountId : Option Int) :
    (nameValid service accountName accountId = true ↔
        service.lib.NameValid accountName = true ∧
          ((∃ err, service.storage.GetOneAccountByName accountName = .error err ∧
              errorsIs err GoError.ErrNoRecord = true) ∨
            ∃ account id, service.storage.GetOneAccountByName accountName = .ok account ∧
              accountId = some id ∧ account.ID = id)) ∧
      (∀ err, service.storage.GetOneAccountByName accountName = .error err →
        errorsIs err GoError.ErrNoRecord = false →
        nameValid service accountName accountId = false) := by
  constructor
  · unfold nameValid
    cases hn : service.lib.NameValid accountName with
    | false => simp
    | true =>
      cases hs : service.storage.GetOneAccountByName accountName with
      | error err =>
        cases he : errorsIs err GoError.ErrNoRecord <;> simp [he]
      | ok account =>
        cases accountId with
        | none => simp
        | some id =>
          by_cases hid : account.ID = id <;> simp [hid]
  · intro err hs he
    unfold nameValid
    cases hn : service.lib.NameValid accountName <;> simp [hs, he]

/-- C13 on a name that is taken by the account with id 7, and on a storage
that fails with an error other than `ErrNoRecord`. -/
theorem nameValid_iff_witness :
    nameValid (serviceFor accountValid) "acct" (some 7) = true ∧
      nameValid (serviceFor accountValid) "acct" (some 8) = false ∧
      nameValid (serviceFor accountValid) "acct" none = false ∧
      nameValid (serviceFor accountValid) "free-name" none = true ∧
      (serviceStorageDown.storage.GetOneAccountByName "acct"
          = .error (GoError.foreign "database is locked") ∧
        nameValid serviceStorageDown "acct" (some 7) = false) :=
  ⟨by decide, by decide, by decide, by decide, rfl,
    (nameValid_iff serviceStorageDown "acct" (some 7)).2
      (GoError.foreign "database is locked") rfl (by decide)⟩

end acme_accounts

namespace dns01acmesh

/-- The two script paths of `NewService`, written out. -/
theorem script_paths (cfg : Config) :
    cfg.AcmeShPath ++ "/" ++ acmeShFileName = cfg.AcmeShPath ++ "/acme.sh" ∧
      cfg.AcmeShPath ++ dnsApiPath ++ "/" ++ cfg.DnsHook ++ ".sh"
        = cfg.AcmeShPath ++ "/dnsapi/" ++ cfg.DnsHook ++ ".sh" := by
  constructor
  · rw [String.append_assoc]; rfl
  · rw [String.append_assoc cfg.AcmeShPath dnsApiPath "/"]; rfl

/-- C19: for a config that is not nil, on a host that is not Windows and with a
logger that is not nil, `NewService` returns no service and the error
`errBashMissing` when bash is not found on the path, and no service and an
error when `<AcmeShPath>/acme.sh` or `<AcmeShPath>/dnsapi/<DnsHook>.sh` cannot
be read (the error of the read, once bash is found and what is read before it
was read); when it returns a service, bash was found and both files were
read. -/
theorem NewService_needs_bash_and_scripts (host : Host) (app : App) (cfg : Config)
    (logger : Logger) (hos : host.GOOS ≠ "windows") (hlog : app.GetLogger = some logger) :
    (∀ e, host.LookPath "bash" = .error e →
        (NewService host app (some cfg)).1 = .error GoError.errBashMissing) ∧
      (∀ e, host.ReadFile (cfg.AcmeShPath ++ "/acme.sh") = .error e →
        (∃ err, (NewService host app (some cfg)).1 = .error err) ∧
        ((∃ sh, host.LookPath "bash" = .ok sh) →
          (NewService host app (some cfg)).1 = .error e)) ∧
      (∀ e, host.ReadFile (cfg.AcmeShPath ++ "/dnsapi/" ++ cfg.DnsHook ++ ".sh") = .error e →
        (∃ err, (NewService host app (some cfg)).1 = .error err) ∧
        ((∃ sh, host.LookPath "bash" = .ok sh) →
          (∃ b, host.ReadFile (cfg.AcmeShPath ++ "/acme.sh") = .ok b) →
          (NewService host app (some cfg)).1 = .error e)) ∧
      (∀ service, (NewService host app (some cfg)).1 = .ok service →
        (∃ sh, host.LookPath "bash" = .ok sh) ∧
        (∃ b, host.ReadFile (cfg.AcmeShPath ++ "/acme.sh") = .ok b) ∧
        (∃ b, host.ReadFile (cfg.AcmeShPath ++ "/dnsapi/" ++ cfg.DnsHook ++ ".sh") = .ok b)) := by
  obtain ⟨hp1, hp2⟩ := script_paths cfg
  rw [← hp1, ← hp2]
  refine ⟨?_, ?_, ?_, ?_⟩
  · intro e h
    simp [NewService, hos, hlog, h]
  · intro e h
    cases hb : host.LookPath "bash" with
    | error e2 => simp [NewService, hos, hlog, hb]
    | ok sh => simp [NewService, hos, hlog, hb, h]
  · intro e h
    cases hb : host.LookPath "bash" with
    | error e2 => simp [NewService, hos, hlog, hb]
    | ok sh =>
      cases ha : host.ReadFile (cfg.AcmeShPath ++ "/" ++ acmeShFileName) with
      | error e3 => simp [NewService, hos, hlog, hb, ha]
      | ok b => simp [NewService, hos, hlog, hb, ha, h]
  · intro service h
    cases hb : host.LookPath "bash" with
    | error e2 => simp [NewService, hos, hlog, hb] at h
    | ok sh =>
      cases ha : host.ReadFile (cfg.AcmeShPath ++ "/" ++ acmeShFileName) with
      | error e3 => simp [NewService, hos, hlog, hb, ha] at h
      | ok b =>
        cases hh : host.ReadFile
            (cfg.AcmeShPath ++ dnsApiPath ++ "/" ++ cfg.DnsHook ++ ".sh") with
        | error e4 => simp [NewService, hos, hlog, hb, ha, hh] at h
        | ok b2 => exact ⟨⟨sh, rfl⟩, ⟨b, rfl⟩, ⟨b2, rfl⟩⟩

/-- C19 on a host without bash, on a host where the hook script is missing and
on a host where all three are there. -/
theorem NewService_needs_bash_and_scripts_witness :
    (NewService providers.hostNoBash providers.appWithLogger (some providers.cfgAcmeSh)).1
        = .error GoError.errBashMissing ∧
      (NewService providers.hostNoHook providers.appWithLogger (some providers.cfgAcmeSh)).1
        = .error (GoError.foreign "no such file or directory") ∧
      (∃ service,
        (NewService providers.hostOk providers.appWithLogger (some providers.cfgAcmeSh)).1
          = .ok service) ∧
      ((∃ sh, providers.hostOk.LookPath "bash" = .ok sh) ∧
        (∃ b, providers.hostOk.ReadFile (providers.cfgAcmeSh.AcmeShPath ++ "/acme.sh") = .ok b) ∧
        (∃ b, providers.hostOk.ReadFile
          (providers.cfgAcmeSh.AcmeShPath ++ "/dnsapi/" ++ providers.cfgAcmeSh.DnsHook ++ ".sh")
            = .ok b)) :=
  have h := NewService_needs_bash_and_scripts providers.hostOk providers.appWithLogger
    providers.cfgAcmeSh { name := "app" } (by decide) rfl
  have h2 := NewService_needs_bash_and_scripts providers.hostNoHook providers.appWithLogger
    providers.cfgAcmeSh { name := "app" } (by decide) rfl
  have h3 := NewService_needs_bash_and_scripts providers.hostNoBash providers.appWithLogger
    providers.cfgAcmeSh { name := "app" } (by decide) rfl
  ⟨h3.1 (GoError.foreign "executable file not found in $PATH") rfl,
    (h2.2.2.1 (GoError.foreign "no such file or directory") rfl).2 ⟨_, rfl⟩ ⟨_, rfl⟩,
    ⟨_, rfl⟩,
    h.2.2.2 _ rfl⟩

end dns01acmesh

namespace sqlite

/-- C14: the sort column of `GetAllKeys` is one of id, name, description and
algorithm: it is the sort field of the query when that is one of the four and
`name` otherwise.  The query text is fixed text around that column, a blank and
the sort direction, so two queries with the same sort column and direction give
the same text, and that text is all the engine is asked. -/
theorem GetAllKeys_sort_column (q : pagination_sort.Query) :
    GetAllKeys.sortField q ∈ ["id", "name", "description", "algorithm"] ∧
      (q.SortField ∈ ["id", "name", "description", "algorithm"] →
        GetAllKeys.sortField q = q.SortField) ∧
      (q.SortField ∉ ["id", "name", "description", "algorithm"] →
        GetAllKeys.sortField q = "name") ∧
      (∃ head tail : String, ∀ q2 : pagination_sort.Query,
        GetAllKeys.query q2
          = head ++ (GetAllKeys.sortField q2 ++ " " ++ q2.SortDirection) ++ tail) ∧
      (∀ q2 : pagination_sort.Query, GetAllKeys.sortField q2 = GetAllKeys.sortField q →
        q2.SortDirection = q.SortDirection → GetAllKeys.query q2 = GetAllKeys.query q) ∧
      (∀ (Q1 Q2 : String → Int → Int → List (keyDb × Int)) (engine : Engine),
        Q1 (GetAllKeys.query q) = Q2 (GetAllKeys.query q) →
        GetAllKeys Q1 engine q = GetAllKeys Q2 engine q) := by
  refine ⟨?_, ?_, ?_, ⟨_, _, fun q2 => rfl⟩, ?_, ?_⟩
  · unfold GetAllKeys.sortField
    simp only [List.mem_cons, List.mem_singleton, List.not_mem_nil, or_false]
    repeat' split
    all_goals simp_all
  · intro h
    simp only [List.mem_cons, List.mem_singleton, List.not_mem_nil, or_false] at h
    unfold GetAllKeys.sortField
    rcases h with h | h | h | h <;> simp [h]
  · intro h
    simp only [List.mem_cons, List.mem_singleton, List.not_mem_nil, or_false, not_or] at h
    unfold GetAllKeys.sortField
    simp [h.1, h.2.1, h.2.2.1, h.2.2.2]
  · intro q2 h1 h2
    simp only [GetAllKeys.query, h1, h2]
  · intro Q1 Q2 engine h
    simp only [GetAllKeys, h]

/-- C14 on a query whose sort field is not a column name. -/
theorem GetAllKeys_sort_column_witness :
    queryOdd.SortField ∉ ["id", "name", "description", "algorithm"] ∧
      GetAllKeys.sortField queryOdd = "name" ∧
      GetAllKeys.sortField queryById = "id" :=
  ⟨by decide, (GetAllKeys_sort_column queryOdd).2.2.1 (by decide),
    (GetAllKeys_sort_column queryById).2.1 (by decide)⟩

/-- A character has at least one byte. -/
theorem utf8Char_ne_nil (n : Nat) : utf8Char n ≠ [] := by
  unfold utf8Char
  repeat' split
  all_goals simp

/-- Only the empty text has no bytes. -/
theorem utf8_length_eq_zero (a : String) : (utf8 a).length = 0 ↔ a = "" := by
  constructor
  · intro h
    have h1 : utf8List a.toList = [] := List.length_eq_zero.mp h
    have h2 : a.toList = [] := by
      cases hl : a.toList with
      | nil => rfl
      | cons c cs =>
        rw [hl] at h1
        simp only [utf8List, List.append_eq_nil] at h1
        exact absurd h1.1 (utf8Char_ne_nil _)
    exact String.ext (by simpa using h2)
  · rintro rfl
    rfl

/-- Only the empty text equals the empty text under NOCASE. -/
theorem nocaseEq_empty (a : String) : nocaseEq a "" = true ↔ a = "" := by
  constructor
  · intro h
    simp only [nocaseEq, Bool.and_eq_true, beq_iff_eq] at h
    exact (utf8_length_eq_zero a).mp h.2
  · rintro rfl
    rfl

/-- A row of the result set of `getOneKey` is a row of the table that has the
id or the name. -/
theorem getOneKey_rows_mem (db : Database) (id : Int) (name : String) (r : keyDb)
    (h : r ∈ getOneKey.rows db id name) :
    r ∈ db.private_keys ∧ (r.id = id ∨ nocaseEq r.name name = true) := by
  simp only [getOneKey.rows, List.mem_append, List.mem_filter, beq_iff_eq,
    Bool.and_eq_true, Bool.not_eq_true', beq_eq_false_iff_ne] at h
  rcases h with ⟨h1, h2⟩ | ⟨h1, _, h3⟩
  · exact ⟨h1, Or.inl h2⟩
  · exact ⟨h1, Or.inr h3⟩

/-- The result of `getOneKey` in terms of the rows that match. -/
theorem getOneKey_ok (db : Database) (engine : Engine) (n : Nat) (id : Int) (name : String)
    (k : private_keys.Key) (h : getOneKey db engine n id name = .ok k) :
    ∃ r ∈ db.private_keys, (r.id = id ∨ nocaseEq r.name name = true) ∧ k = r.toKey := by
  unfold getOneKey at h
  cases hf : engine.fail n with
  | some err => simp [hf] at h
  | none =>
    cases hr : (getOneKey.rows db id name).head? with
    | none => simp [hf, hr] at h
    | some r =>
      simp only [hf, hr, Except.ok.injEq] at h
      obtain ⟨h1, h2⟩ := getOneKey_rows_mem db id name r (List.mem_of_mem_head? hr)
      exact ⟨r, h1, h2, h.symm⟩

/-- When a row of the table has the id, `getOneKey` that runs returns the key
of the first row with the id. -/
theorem getOneKey_id_first (db : Database) (engine : Engine) (n : Nat) (id : Int)
    (name : String) (r : keyDb) (hf : engine.fail n = none)
    (hr : (db.private_keys.filter fun r => r.id == id).head? = some r) :
    getOneKey db engine n id name = .ok r.toKey := by
  have hrows : (getOneKey.rows db id name).head? = some r := by
    unfold getOneKey.rows
    cases hl : db.private_keys.filter fun r => r.id == id with
    | nil => rw [hl] at hr; cases hr
    | cons x xs => rw [hl] at hr; simpa using hr
  simp [getOneKey, hf, hrows]

/-- In a table in which a key with the empty name stands before key 2, the
lookup of id 2 matches both rows and returns key 2, the row that has the id. -/
theorem getOneKey_id_first_example :
    (engineOk.fail 0 = none ∧
      (dbNoNameTwo.private_keys.filter fun r => r.id == 2).head? = some keyRowTwo) ∧
      getOneKey.rows dbNoNameTwo 2 "" = [keyRowTwo, keyRowNoName] ∧
      GetOneKeyById dbNoNameTwo engineOk 0 2 = .ok keyRowTwo.toKey :=
  ⟨⟨rfl, rfl⟩, by decide, getOneKey_id_first dbNoNameTwo engineOk 0 2 "" keyRowTwo rfl rfl⟩

/-- C17: the code breaks the claim.  In a table whose only key has id 1 and the
empty name, `GetOneKeyById 5` matches `id = 5 OR name = ''`, succeeds and
returns the key with id 1, where the claim has the id asked for, or
`ErrNoRecord` as no row has it.  In a table whose only key has id -1 and the
name `odd`, `GetOneKeyByName` for the name `other` succeeds and returns the key
named `odd`. -/
theorem getOneKey_sentinel_rows :
    (∃ k, GetOneKeyById dbNoName engineOk 0 5 = .ok k ∧ k.ID = 1) ∧
      ¬ (∀ k, GetOneKeyById dbNoName engineOk 0 5 = .ok k → k.ID = 5) ∧
      GetOneKeyById dbNoName engineOk 0 5 ≠ .error GoError.ErrNoRecord ∧
      (∃ k, GetOneKeyByName dbMinusOne engineOk 0 "other" = .ok k ∧ k.Name = "odd") ∧
      ¬ (∀ k, GetOneKeyByName dbMinusOne engineOk 0 "other" = .ok k → k.Name = "other") ∧
      GetOneKeyByName dbMinusOne engineOk 0 "other" ≠ .error GoError.ErrNoRecord := by
  have h1 : GetOneKeyById dbNoName engineOk 0 5 = .ok keyRowNoName.toKey := rfl
  have h2 : GetOneKeyByName dbMinusOne engineOk 0 "other" = .ok keyRowMinusOne.toKey := rfl
  refine ⟨⟨keyRowNoName.toKey, h1, rfl⟩, ?_, ?_, ⟨keyRowMinusOne.toKey, h2, rfl⟩, ?_, ?_⟩
  · intro h
    have := h keyRowNoName.toKey h1
    revert this
    decide
  · rw [h1]; intro h; cases h
  · intro h
    have := h keyRowMinusOne.toKey h2
    revert this
    decide
  · rw [h2]; intro h; cases h

/-- What holds of the lookups away from the sentinel values: in a table in
which no key has the empty name, a key that `GetOneKeyById` returns has the id
asked for; in a table in which no key has the id -1, a key that
`GetOneKeyByName` returns has the name asked for, as the name column compares
names (NOCASE); when the query runs and no row has the id, respectively the
name, the lookup fails with `ErrNoRecord`; and no error that is `sql.ErrNoRows`
is ever returned. -/
theorem getOneKey_by_id_or_name (db : Database) (engine : Engine) (n : Nat) :
    (∀ id k, (∀ r ∈ db.private_keys, r.name ≠ "") →
        GetOneKeyById db engine n id = .ok k → k.ID = id) ∧
      (∀ name k, (∀ r ∈ db.private_keys, r.id ≠ -1) →
        GetOneKeyByName db engine n name = .ok k → nocaseEq k.Name name = true) ∧
      (∀ id, engine.fail n = none →
        (∀ r ∈ db.private_keys, r.id ≠ id ∧ r.name ≠ "") →
        GetOneKeyById db engine n id = .error GoError.ErrNoRecord) ∧
      (∀ name, engine.fail n = none →
        (∀ r ∈ db.private_keys, r.id ≠ -1 ∧ nocaseEq r.name name = false) →
        GetOneKeyByName db engine n name = .error GoError.ErrNoRecord) ∧
      (∀ id name e, getOneKey db engine n id name = .error e →
        errorsIs e sqlErrNoRows = false) := by
  have hnil : ∀ id name, (∀ r ∈ db.private_keys, r.id ≠ id ∧ nocaseEq r.name name = false) →
      getOneKey.rows db id name = [] := by
    intro id name hrows
    simp only [getOneKey.rows, List.append_eq_nil, List.filter_eq_nil_iff, beq_iff_eq,
      Bool.and_eq_true, Bool.not_eq_true', beq_eq_false_iff_ne, not_and]
    constructor
    · intro r hr
      exact (hrows r hr).1
    · intro r hr _
      simp [(hrows r hr).2]
  refine ⟨?_, ?_, ?_, ?_, ?_⟩
  · intro id k hname h
    obtain ⟨r, hr, hmatch, rfl⟩ := getOneKey_ok db engine n id "" k h
    rcases hmatch with h1 | h1
    · exact h1
    · exact absurd ((nocaseEq_empty r.name).mp h1) (hname r hr)
  · intro name k hid h
    obtain ⟨r, hr, hmatch, rfl⟩ := getOneKey_ok db engine n (-1) name k h
    rcases hmatch with h1 | h1
    · exact absurd h1 (hid r hr)
    · exact h1
  · intro id hf hrows
    have hnone := hnil id "" (fun r hr => by
      refine ⟨(hrows r hr).1, ?_⟩
      cases h : nocaseEq r.name ""
      · rfl
      · exact absurd ((nocaseEq_empty r.name).mp h) (hrows r hr).2)
    simp [GetOneKeyById, getOneKey, hf, hnone, errorsIs]
  · intro name hf hrows
    have hnone := hnil (-1) name hrows
    simp [GetOneKeyByName, getOneKey, hf, hnone, errorsIs]
  · intro id name e h
    unfold getOneKey at h
    cases hf : engine.fail n with
    | some err =>
      simp only [hf, Except.error.injEq] at h
      by_cases he : errorsIs err sqlErrNoRows = true
      · simp only [he, if_true] at h
        rw [← h]; decide
      · simp only [he] at h
        rw [← h]; simpa using he
    | none =>
      cases hr : (getOneKey.rows db id name).head? with
      | none =>
        simp [hf, hr, errorsIs] at h
        rw [← h]; decide
      | some r => simp [hf, hr] at h

/-- The lookups on the database with three keys: by id and by name that
succeed, and for an id and a name that no key has. -/
theorem getOneKey_by_id_or_name_witness :
    (∀ r ∈ dbFive.private_keys, r.name ≠ "") ∧
      GetOneKeyById dbFive engineOk 0 2 = .ok keyRowTwo.toKey ∧
      keyRowTwo.toKey.ID = 2 ∧
      GetOneKeyById dbFive engineOk 0 9 = .error GoError.ErrNoRecord ∧
      GetOneKeyByName dbFive engineOk 0 "nobody" = .error GoError.ErrNoRecord :=
  have hname : ∀ r ∈ dbFive.private_keys, r.name ≠ "" := by decide
  have h := getOneKey_by_id_or_name dbFive engineOk 0
  ⟨hname, rfl, h.1 2 keyRowTwo.toKey hname rfl, h.2.2.1 9 rfl (by decide),
    h.2.2.2.1 "nobody" rfl (by decide)⟩

/-- C18: `migrateV5toV6` returns 6 and nil only from a database at version 5,
and then the database is the old one with version 6 and with every certificate
named `legocerthub` (as the name column compares names, NOCASE) renamed to
`serverdefault`: the other columns of those rows, the other certificates in
their places and the other tables are as before.  In every other case,
a version other than 5 included, it returns -1 with an error and the database
is the old one. -/
theorem migrateV5toV6_all_or_nothing (db : Database) (engine : Engine) :
    ((migrateV5toV6 db engine).1 = (6, none) →
        db.user_version = 5 ∧
        (migrateV5toV6 db engine).2 =
          { db with
            user_version := 6
            certificates := db.certificates.map fun c =>
              if nocaseEq c.name "legocerthub" then { c with name := "serverdefault" }
              else c } ∧
        (∀ c ∈ db.certificates, c.name = "legocerthub" →
          { c with name := "serverdefault" } ∈ (migrateV5toV6 db engine).2.certificates) ∧
        (∀ c ∈ (migrateV5toV6 db engine).2.certificates,
          nocaseEq c.name "legocerthub" = false)) ∧
      ((migrateV5toV6 db engine).1 ≠ (6, none) →
        (migrateV5toV6 db engine).1.1 = -1 ∧
        (∃ err, (migrateV5toV6 db engine).1.2 = some err) ∧
        (migrateV5toV6 db engine).2 = db) ∧
      (db.user_version ≠ 5 →
        (migrateV5toV6 db engine).1.1 = -1 ∧
        (∃ err, (migrateV5toV6 db engine).1.2 = some err) ∧
        (migrateV5toV6 db engine).2 = db) := by
  have hrename : ∀ c : certificateRow,
      nocaseEq (migrateV5toV6.rename c).name "legocerthub" = false := by
    intro c
    unfold migrateV5toV6.rename
    by_cases h : nocaseEq c.name "legocerthub" = true
    · simp only [h, if_true]; decide
    · simp [h]
  have hself : nocaseEq "legocerthub" "legocerthub" = true := by decide
  have hcases : (migrateV5toV6 db engine).1 = (6, none) ∧ db.user_version = 5 ∧
        (migrateV5toV6 db engine).2 =
          { db with
            user_version := 6
            certificates := db.certificates.map migrateV5toV6.rename } ∨
      ((migrateV5toV6 db engine).1.1 = -1 ∧
        (∃ err, (migrateV5toV6 db engine).1.2 = some err) ∧
        (migrateV5toV6 db engine).2 = db) := by
    simp only [migrateV5toV6]
    repeat' split
    all_goals simp_all
  refine ⟨?_, ?_, ?_⟩
  · intro hres
    rcases hcases with ⟨_, hv, hdb⟩ | ⟨h1, _, _⟩
    · refine ⟨hv, ?_, ?_, ?_⟩
      · rw [hdb]; rfl
      · intro c hc hname
        rw [hdb]
        simp only [List.mem_map]
        refine ⟨c, hc, ?_⟩
        simp [migrateV5toV6.rename, hname, hself]
      · intro c hc
        rw [hdb] at hc
        simp only [List.mem_map] at hc
        obtain ⟨c0, _, rfl⟩ := hc
        exact hrename c0
    · rw [hres] at h1
      simp at h1
  · intro hne
    rcases hcases with ⟨h, _, _⟩ | h
    · exact absurd h hne
    · exact h
  · intro hv
    rcases hcases with ⟨_, h, _⟩ | h
    · exact absurd h hv
    · exact h

/-- C18 on a database at version 5 that is migrated, on the same database when
the commit fails, and on a database at version 4. -/
theorem migrateV5toV6_all_or_nothing_witness :
    ((migrateV5toV6 dbFive engineOk).1 = (6, none) ∧
        (migrateV5toV6 dbFive engineOk).2 =
          { dbFive with
            user_version := 6
            certificates := [{ certRowOne with name := "serverdefault" }, certRowTwo] }) ∧
      ((migrateV5toV6 dbFive engineCommitFails).1 ≠ (6, none) ∧
        (migrateV5toV6 dbFive engineCommitFails).2 = dbFive) ∧
      (dbFour.user_version ≠ 5 ∧ (migrateV5toV6 dbFour engineOk).1.1 = -1 ∧
        (migrateV5toV6 dbFour engineOk).2 = dbFour) :=
  have h5 : (migrateV5toV6 dbFive engineOk).1 = (6, none) := by decide
  have hc : (migrateV5toV6 dbFive engineCommitFails).1 ≠ (6, none) := by decide
  have h4 : dbFour.user_version ≠ 5 := by decide
  ⟨⟨h5, ((migrateV5toV6_all_or_nothing dbFive engineOk).1 h5).2.1.trans (by decide)⟩,
    ⟨hc, ((migrateV5toV6_all_or_nothing dbFive engineCommitFails).2.1 hc).2.2⟩,
    ⟨h4, ((migrateV5toV6_all_or_nothing dbFour engineOk).2.2 h4).1,
      ((migrateV5toV6_all_or_nothing dbFour engineOk).2.2 h4).2.2⟩⟩

/-- The SET list does to a row what the update is to do. -/
theorem PutKeyUpdate_set_updates (payload : private_keys.UpdatePayload) (r : keyDb) :
    PutKeyUpdate.updates payload r (PutKeyUpdate.set payload r) := by
  obtain ⟨id, name, desc, ak, akn, akd, akv, upd⟩ := payload
  cases name <;> cases desc <;> cases ak <;> cases akn <;> cases akd <;> cases akv <;>
    simp [PutKeyUpdate.updates, PutKeyUpdate.set]

/-- The SET list keeps the id of a row. -/
theorem PutKeyUpdate_set_id (payload : private_keys.UpdatePayload) (r : keyDb) :
    (PutKeyUpdate.set payload r).id = r.id := rfl

/-- The rows with a given id after the UPDATE are the updated rows that had
the id before. -/
theorem PutKeyUpdate_rows_with_id (payload : private_keys.UpdatePayload) (l : List keyDb) :
    ((l.map fun r => if r.id = payload.ID then PutKeyUpdate.set payload r else r).filter
        fun r => r.id == payload.ID) =
      (l.filter fun r => r.id == payload.ID).map (PutKeyUpdate.set payload) := by
  induction l with
  | nil => rfl
  | cons x xs ih =>
    by_cases h : x.id = payload.ID
    · simp only [List.map_cons, h, if_true]
      rw [List.filter_cons_of_pos (by simp [PutKeyUpdate_set_id, h]),
        List.filter_cons_of_pos (by simp [h]), ih]
      rfl
    · simp only [List.map_cons, h, if_false]
      rw [List.filter_cons_of_neg (by simp [h]), List.filter_cons_of_neg (by simp [h]), ih]

/-- What `PutKeyUpdate` does when a key has the id of the payload.  When the
UPDATE runs, the table `private_keys` afterwards has, place by place, the rows
of before: a row with another id is unchanged, and a row with the id of the
payload has each of name, description, api_key, api_key_new, api_key_disabled
and api_key_via_url set to the payload field that is not null and unchanged
where it is null, `updated_at` set to the time of the payload, and id,
algorithm, pem and `created_at` unchanged; the other tables and the version
are unchanged.  When the re-read runs too and a row has the id of the payload,
the key returned is the first such row as updated.  When the UPDATE fails
nothing is changed and its error is returned. -/
theorem PutKeyUpdate_effect (db : Database) (engine : Engine)
    (payload : private_keys.UpdatePayload) :
    (engine.fail 0 = none →
        List.Forall₂
          (fun r r1 => (r.id ≠ payload.ID → r1 = r) ∧
            (r.id = payload.ID → PutKeyUpdate.updates payload r r1))
          db.private_keys (PutKeyUpdate db engine payload).2.private_keys ∧
        (PutKeyUpdate db engine payload).2 =
          { db with private_keys := (PutKeyUpdate db engine payload).2.private_keys } ∧
        (∀ r, engine.fail 1 = none →
          (db.private_keys.filter fun r => r.id == payload.ID).head? = some r →
          (PutKeyUpdate db engine payload).1 = .ok (PutKeyUpdate.set payload r).toKey ∧
            (PutKeyUpdate.set payload r) ∈ (PutKeyUpdate db engine payload).2.private_keys ∧
            (PutKeyUpdate.set payload r).id = payload.ID ∧
            PutKeyUpdate.updates payload r (PutKeyUpdate.set payload r))) ∧
      (∀ err, engine.fail 0 = some err →
        PutKeyUpdate db engine payload = (.error err, db)) := by
  constructor
  · intro hf
    have hdb : (PutKeyUpdate db engine payload).2 =
        { db with
          private_keys := db.private_keys.map fun r =>
            if r.id = payload.ID then PutKeyUpdate.set payload r else r } := by
      simp only [PutKeyUpdate, hf]
      split <;> rfl
    have hres : (PutKeyUpdate db engine payload).1 =
        GetOneKeyById (PutKeyUpdate db engine payload).2 engine 1 payload.ID := by
      rw [hdb]
      simp only [PutKeyUpdate, hf]
      split <;> simp_all
    refine ⟨?_, ?_, ?_⟩
    · rw [hdb]
      simp only
      rw [List.forall₂_map_right_iff]
      apply List.forall₂_same.mpr
      intro r _
      by_cases h : r.id = payload.ID
      · simp only [h, if_true, ne_eq, not_true_eq_false, false_implies, true_and, true_implies]
        exact PutKeyUpdate_set_updates payload r
      · simp [h]
    · rw [hdb]
    · intro r hf1 hr
      have hmem : r ∈ db.private_keys.filter fun r => r.id == payload.ID :=
        List.mem_of_mem_head? hr
      have hid : r.id = payload.ID := by simpa using (List.mem_filter.mp hmem).2
      refine ⟨?_, ?_, hid, PutKeyUpdate_set_updates payload r⟩
      · rw [hres, hdb]
        apply getOneKey_id_first _ engine 1 payload.ID "" _ hf1
        simp only
        rw [PutKeyUpdate_rows_with_id, List.head?_map, hr]
        rfl
      · rw [hdb]
        simp only [List.mem_map]
        exact ⟨r, (List.mem_filter.mp hmem).1, by simp [hid]⟩
  · intro err hf
    simp [PutKeyUpdate, hf]

/-- The update of the description and the disabled flag of key 2 of the
database with three keys, and the same update when a key with the empty name
stands before key 2 in the table: the updated key 2 is returned. -/
theorem PutKeyUpdate_effect_example :
    engineOk.fail 0 = none ∧
      (PutKeyUpdate dbFive engineOk payloadTwo).2.private_keys =
        [keyRowOne,
          { keyRowTwo with description := "rotated", apiKeyDisabled := true, updatedAt := 99 },
          keyRowThree] ∧
      (PutKeyUpdate dbFive engineOk payloadTwo).1 =
        .ok ({ keyRowTwo with
                description := "rotated", apiKeyDisabled := true, updatedAt := 99 }).toKey ∧
      (PutKeyUpdate dbNoNameTwo engineOk payloadTwo).1 =
        .ok ({ keyRowTwo with
                description := "rotated", apiKeyDisabled := true, updatedAt := 99 }).toKey ∧
      (PutKeyUpdate dbFive engineOk payloadTwo).1 =
        .ok (PutKeyUpdate.set payloadTwo keyRowTwo).toKey :=
  ⟨rfl, by decide, rfl, rfl,
    (((PutKeyUpdate_effect dbFive engineOk payloadTwo).1 rfl).2.2 keyRowTwo rfl rfl).1⟩

/-- C16: the code breaks the claim.  In a table whose only key has id 1 and
the empty name, `PutKeyUpdate` with the id 5 and a new description runs an
UPDATE that changes no row, and the re-read `GetOneKeyById 5` matches
`id = 5 OR name = ''`: the call succeeds and returns the key with id 1, which
is not the row whose id is that of the payload and was not updated.  The
defect is that of the sentinel arguments of `getOneKey`, reached through the
re-read. -/
theorem PutKeyUpdate_returns_other_key :
    engineOk.fail 0 = none ∧ engineOk.fail 1 = none ∧
      (∀ r ∈ dbNoName.private_keys, r.id ≠ payloadFive.ID) ∧
      PutKeyUpdate dbNoName engineOk payloadFive = (.ok keyRowNoName.toKey, dbNoName) ∧
      keyRowNoName.toKey.ID = 1 ∧ payloadFive.ID = 5 ∧
      keyRowNoName.toKey.Description ≠ "rotated" ∧
      (∀ r ∈ (PutKeyUpdate dbNoName engineOk payloadFive).2.private_keys,
        r.id ≠ payloadFive.ID) :=
  ⟨rfl, rfl, by decide, rfl, rfl, rfl, by decide, by decide⟩

/-- With no failing call, the loop of `GetAvailableKeys` appends the key of
every row, in order. -/
theorem GetAvailableKeys_scan (engine : Engine) (hf : ∀ n, engine.fail n = none)
    (rows : List keyDb) (i : Nat) (acc : List private_keys.Key) :
    GetAvailableKeys.scan engine i rows acc = .ok (acc ++ rows.map keyDb.toKey) := by
  induction rows generalizing i acc with
  | nil => simp [GetAvailableKeys.scan]
  | cons r rest ih => simp [GetAvailableKeys.scan, hf, ih]

/-- The WHERE clause holds for a key exactly when its id is the
`private_key_id` of no account row and of no certificate row. -/
theorem availableWhere_iff (db : Database) (pk : keyDb) :
    availableWhere db pk = true ↔
      (∀ aa ∈ db.acme_accounts, aa.private_key_id ≠ pk.id) ∧
        (∀ c ∈ db.certificates, c.private_key_id ≠ pk.id) := by
  simp only [availableWhere, Bool.and_eq_true, Bool.not_eq_true', List.any_eq_false,
    beq_iff_eq, ne_eq]
  constructor
  · rintro ⟨h1, h2⟩
    exact ⟨fun aa ha h => h1 aa ha h.symm, fun c hc h => h2 c hc h.symm⟩
  · rintro ⟨h1, h2⟩
    exact ⟨fun aa ha h => h1 aa ha h.symm, fun c hc h => h2 c hc h.symm⟩

/-- The order of the name column is total. -/
theorem nocaseLe_total (a b : String) : nocaseLe a b ∨ nocaseLe b a := by
  unfold nocaseLe
  rcases lt_trichotomy (nocaseFold a) (nocaseFold b) with h | h | h
  · exact Or.inl (Or.inl h)
  · rcases Nat.le_total (utf8 a).length (utf8 b).length with hl | hl
    · exact Or.inl (Or.inr ⟨h, hl⟩)
    · exact Or.inr (Or.inr ⟨h.symm, hl⟩)
  · exact Or.inr (Or.inl h)

/-- The order of the name column is transitive. -/
theorem nocaseLe_trans (a b c : String) (h1 : nocaseLe a b) (h2 : nocaseLe b c) :
    nocaseLe a c := by
  unfold nocaseLe at *
  rcases h1 with h1 | ⟨e1, l1⟩
  · rcases h2 with h2 | ⟨e2, _⟩
    · exact Or.inl (lt_trans h1 h2)
    · exact Or.inl (e2 ▸ h1)
  · rcases h2 with h2 | ⟨e2, l2⟩
    · exact Or.inl (e1 ▸ h2)
    · exact Or.inr ⟨e1.trans e2, Nat.le_trans l1 l2⟩

/-- What `GetAvailableKeys` returns when the iteration is not cut short: when
the query runs, every row is delivered and every scan succeeds, the result is
the keys of a list of rows that is a rearrangement of the rows of
`private_keys` whose id is the `private_key_id` of no `acme_accounts` row and
of no `certificates` row (so each such row is there as often as in the table,
once when ids are unique), sorted by name as the name column compares
(NOCASE); when the query fails its error is returned. -/
theorem GetAvailableKeys_complete (db : Database) (engine : Engine) :
    ((∀ n, engine.fail n = none) → engine.cut = none →
        ∃ rows : List keyDb,
          GetAvailableKeys db engine = .ok (rows.map keyDb.toKey) ∧
          rows.Perm (db.private_keys.filter fun pk =>
            decide ((∀ aa ∈ db.acme_accounts, aa.private_key_id ≠ pk.id) ∧
              (∀ c ∈ db.certificates, c.private_key_id ≠ pk.id))) ∧
          (∀ pk, pk ∈ rows ↔ pk ∈ db.private_keys ∧
            (∀ aa ∈ db.acme_accounts, aa.private_key_id ≠ pk.id) ∧
              (∀ c ∈ db.certificates, c.private_key_id ≠ pk.id)) ∧
          ((db.private_keys.map fun r => r.id).Nodup → (rows.map fun r => r.id).Nodup) ∧
          rows.Sorted (fun a b => nocaseLe a.name b.name)) ∧
      (∀ err, engine.fail 0 = some err → GetAvailableKeys db engine = .error err) := by
  constructor
  · intro hf hcut
    have hfilter : (db.private_keys.filter fun pk =>
        decide ((∀ aa ∈ db.acme_accounts, aa.private_key_id ≠ pk.id) ∧
          (∀ c ∈ db.certificates, c.private_key_id ≠ pk.id)))
        = db.private_keys.filter (availableWhere db) := by
      congr 1
      funext pk
      by_cases h : availableWhere db pk = true
      · rw [h]; exact decide_eq_true ((availableWhere_iff db pk).mp h)
      · have h2 : availableWhere db pk = false := by simpa using h
        rw [h2]
        exact decide_eq_false (fun hc => h ((availableWhere_iff db pk).mpr hc))
    have hperm : (availableRows db).Perm (db.private_keys.filter (availableWhere db)) :=
      List.perm_insertionSort _ _
    refine ⟨availableRows db, ?_, ?_, ?_, ?_, ?_⟩
    · simp [GetAvailableKeys, hf, Engine.deliver, hcut, GetAvailableKeys_scan engine hf]
    · rw [hfilter]; exact hperm
    · intro pk
      rw [hperm.mem_iff, List.mem_filter, availableWhere_iff]
    · intro hnd
      have hsub : ((db.private_keys.filter (availableWhere db)).map fun r => r.id).Sublist
          (db.private_keys.map fun r => r.id) :=
        (List.filter_sublist _).map _
      exact ((hperm.map fun r => r.id).nodup_iff).mpr (hnd.sublist hsub)
    · haveI : IsTotal keyDb (fun a b => nocaseLe a.name b.name) :=
        ⟨fun a b => nocaseLe_total a.name b.name⟩
      haveI : IsTrans keyDb (fun a b => nocaseLe a.name b.name) :=
        ⟨fun a b c h1 h2 => nocaseLe_trans a.name b.name c.name h1 h2⟩
      exact List.sorted_insertionSort _ _
  · intro err hf
    simp [GetAvailableKeys, hf]

/-- On the database with three keys, of which key 1 belongs to an account,
a complete iteration returns the keys `alpha` and `Beta`, in this order. -/
theorem GetAvailableKeys_complete_example :
    (∀ n, engineOk.fail n = none) ∧ engineOk.cut = none ∧
      GetAvailableKeys dbFive engineOk = .ok [keyRowThree.toKey, keyRowTwo.toKey] ∧
      ∃ rows : List keyDb,
        GetAvailableKeys dbFive engineOk = .ok (rows.map keyDb.toKey) ∧
        rows.Perm (dbFive.private_keys.filter fun pk =>
          decide ((∀ aa ∈ dbFive.acme_accounts, aa.private_key_id ≠ pk.id) ∧
            (∀ c ∈ dbFive.certificates, c.private_key_id ≠ pk.id))) ∧
        (∀ pk, pk ∈ rows ↔ pk ∈ dbFive.private_keys ∧
          (∀ aa ∈ dbFive.acme_accounts, aa.private_key_id ≠ pk.id) ∧
            (∀ c ∈ dbFive.certificates, c.private_key_id ≠ pk.id)) ∧
        ((dbFive.private_keys.map fun r => r.id).Nodup → (rows.map fun r => r.id).Nodup) ∧
        rows.Sorted (fun a b => nocaseLe a.name b.name) :=
  ⟨fun _ => rfl, rfl, rfl,
    (GetAvailableKeys_complete dbFive engineOk).1 (fun _ => rfl) rfl⟩

/-- C15: the code breaks the claim. The loop of `GetAvailableKeys` ends when
`rows.Next` reports no further row and the list scanned so far is returned
with a nil error, without reading `rows.Err`. On the database whose keys
`alpha` (id 3) and `Beta` (id 2) belong to no account and no certificate, with
no call failing and the iteration ending after the first row, the call
succeeds with only `alpha`: the available key `Beta` is not in the result,
although it is in the result of the complete iteration. -/
theorem GetAvailableKeys_truncated :
    (∀ n, engineCutOne.fail n = none) ∧
      GetAvailableKeys dbFive engineCutOne = .ok [keyRowThree.toKey] ∧
      GetAvailableKeys dbFive engineOk = .ok [keyRowThree.toKey, keyRowTwo.toKey] ∧
      keyRowTwo ∈ dbFive.private_keys ∧
      (∀ aa ∈ dbFive.acme_accounts, aa.private_key_id ≠ keyRowTwo.id) ∧
      (∀ c ∈ dbFive.certificates, c.private_key_id ≠ keyRowTwo.id) ∧
      (∀ k ∈ [keyRowThree.toKey], k.ID ≠ keyRowTwo.id) :=
  ⟨fun _ => rfl, rfl, rfl, by decide, by decide, by decide, by decide⟩

end sqlite

end CertWarden
